import Mathlib

/-!
Verification of the RSS scan orchestration and readability-scoring pipeline
of the readability-scanner repository, as implemented in the Node.js scanner
(`scanSingleSource`, `parseAndSaveResponse`, `scanFeeds`, `editSource` and the
user-agent rotation helpers).  JavaScript objects are modelled as ordered
association lists of field names, JavaScript numbers as rationals extended
with NaN and signed infinities, and the MongoDB store as an association list
with `replaceOne`/`updateOne` semantics.  Network effects (feed parsing and
the extraction-service responses) are parameters of the model: a scan is run
against a scripted sequence of per-item, per-attempt outcomes.
-/

namespace Readability

/-- A JavaScript number: a rational, or one of the IEEE special values that
JavaScript arithmetic can produce (`NaN`, `Infinity`, `-Infinity`).  Finite
values are modelled exactly as rationals. -/
inductive JSNum where
  | num (q : ℚ)
  | nan
  | inf
  | ninf
deriving DecidableEq, Repr

/-- A field value of a stored document: a string, a number, a date
(modelled as an abstract timestamp), or a two-element numeric array (used
only by the Dale-Chall grade bucket). -/
inductive JVal where
  | jstr (s : String)
  | jnum (n : JSNum)
  | jdate (t : Nat)
  | jpair (a b : JSNum)
deriving DecidableEq, Repr

/-- A JavaScript object / MongoDB document: an ordered association list of
field names to values, mirroring JS insertion-order semantics. -/
abbrev Doc := List (String × JVal)

/-- Assignment `obj[k] = v`: replaces the value at an existing key in place,
otherwise appends the new field (JS insertion order). -/
def setField (d : Doc) (k : String) (v : JVal) : Doc :=
  match d with
  | [] => [(k, v)]
  | (k', v') :: rest => if k' = k then (k, v) :: rest else (k', v') :: setField rest k v

/-- Field read `obj[k]`: first binding of the key, if any. -/
def getField (d : Doc) (k : String) : Option JVal :=
  match d with
  | [] => none
  | (k', v') :: rest => if k' = k then some v' else getField rest k

/-- Field read coerced to a string, with `""` for a missing or non-string
field (missing and empty are both falsy in the JS source). -/
def getStr (d : Doc) (k : String) : String :=
  match getField d k with
  | some (.jstr s) => s
  | _ => ""

/-! ## Text utilities (character-list models of the JS string pipeline) -/

/-- Whitespace characters as JavaScript's `trim` / `\s` treat them
(the ASCII ones that can occur in extracted text). -/
def jsWs (c : Char) : Bool :=
  c = ' ' ∨ c = '\t' ∨ c = '\n' ∨ c = '\r' ∨ c = '\x0b' ∨ c = '\x0c'

/-- JavaScript `String.prototype.split` with a single-character separator:
`"".split(' ') = [""]`, and empty segments between adjacent separators are
kept. -/
def splitCharGo (sep : Char) : List Char → List Char → List (List Char)
  | [], acc => [acc.reverse]
  | c :: cs, acc =>
      if c = sep then acc.reverse :: splitCharGo sep cs []
      else splitCharGo sep cs (c :: acc)

/-- `l.split(sep)` on character lists. -/
def splitChar (sep : Char) (l : List Char) : List (List Char) :=
  splitCharGo sep l []

/-- Split on a character predicate, keeping empty segments. -/
def splitPredGo (p : Char → Bool) : List Char → List Char → List (List Char)
  | [], acc => [acc.reverse]
  | c :: cs, acc =>
      if p c then acc.reverse :: splitPredGo p cs []
      else splitPredGo p cs (c :: acc)

/-- Split a character list at every character satisfying `p`. -/
def splitPred (p : Char → Bool) (l : List Char) : List (List Char) :=
  splitPredGo p l []

/-- Count the maximal runs of characters satisfying `p`. -/
def countRunsGo (p : Char → Bool) : Bool → List Char → Nat
  | _, [] => 0
  | inRun, c :: cs =>
      if p c then (if inRun then 0 else 1) + countRunsGo p true cs
      else countRunsGo p false cs

/-- Number of maximal runs of characters satisfying `p` in `l`. -/
def countRuns (p : Char → Bool) (l : List Char) : Nat :=
  countRunsGo p false l

/-- Word count as the `countable` library reports it: the number of maximal
non-whitespace runs (modelled from the library; the empty text has zero
words). -/
def countWords (l : List Char) : Nat :=
  countRuns (fun c => ¬ jsWs c) l

/-- Sentence count as the `countable` library reports it: segments delimited
by terminal punctuation that contain at least one non-whitespace character
(modelled from the library). -/
def countSentences (l : List Char) : Nat :=
  ((splitPred (fun c => c = '.' ∨ c = '!' ∨ c = '?') l).filter
    (fun seg => seg.any (fun c => ¬ jsWs c))).length

/-- Paragraph count as the `countable` library reports it: lines containing
at least one non-whitespace character (modelled from the library). -/
def countParagraphs (l : List Char) : Nat :=
  ((splitPred (fun c => c = '\n') l).filter
    (fun seg => seg.any (fun c => ¬ jsWs c))).length

/-- Character count as the `countable` library reports it: all
non-whitespace characters (modelled from the library). -/
def countCharacters (l : List Char) : Nat :=
  (l.filter (fun c => ¬ jsWs c)).length

/-- Vowels for the syllable heuristic (`y` included), on lowercased input. -/
def isVowelCh (c : Char) : Bool :=
  let lc := c.toLower
  lc = 'a' ∨ lc = 'e' ∨ lc = 'i' ∨ lc = 'o' ∨ lc = 'u' ∨ lc = 'y'

/-- Syllable count of a token: the number of maximal vowel groups (modelled
from the `syllable` package's deterministic vowel-group heuristic; the empty
token has zero syllables). -/
def syllableCount (l : List Char) : Nat :=
  countRuns isVowelCh l

/-- Match `pat` as a literal at the head of the input, returning the
remainder on success. -/
def matchPat : List Char → List Char → Option (List Char)
  | [], rest => some rest
  | _ :: _, [] => none
  | p :: ps, c :: cs => if c = p then matchPat ps cs else none

/-- Global literal replacement (JS `replace(/pat/g, rep)` for a literal
pattern), fuelled by the input length. -/
def replacePatGo (pat rep : List Char) : Nat → List Char → List Char
  | _, [] => []
  | 0, l => l
  | fuel + 1, c :: cs =>
      match matchPat pat (c :: cs) with
      | some rest => rep ++ replacePatGo pat rep fuel rest
      | none => c :: replacePatGo pat rep fuel cs

/-- Replace every occurrence of the literal `pat` by `rep`. -/
def replacePat (pat rep l : List Char) : List Char :=
  replacePatGo pat rep l.length l

/-- Does the tag body (the text between `<` and `>`) name the allowed tag
`p` (an opening `<p ...>` or closing `</p>` form)? -/
def tagIsP (tag : List Char) : Bool :=
  let t := if tag.head? = some '/' then tag.tail else tag
  match t with
  | ['p'] => true
  | 'p' :: c :: _ => c = ' ' ∨ c = '/'
  | _ => false

/-- `striptags(content, ['p'], ' ')`: every tag other than `<p>`/`</p>` is
replaced by a single space, `p` tags are kept verbatim, text outside tags is
kept (modelled from the `striptags` package for well-formed tags). -/
def striptagsGo : Nat → List Char → List Char
  | 0, l => l
  | _ + 1, [] => []
  | fuel + 1, '<' :: cs =>
      let tag := cs.takeWhile (fun c => c ≠ '>')
      match cs.dropWhile (fun c => c ≠ '>') with
      | '>' :: rest =>
          if tagIsP tag then ('<' :: tag) ++ ('>' :: striptagsGo fuel rest)
          else ' ' :: striptagsGo fuel rest
      | _ => '<' :: cs
  | fuel + 1, c :: cs => c :: striptagsGo fuel cs

/-- Remove every occurrence of `<p` lazily up to the next `>` (the JS regex
`/<p[\s\S]*?>/g`). -/
def removePTagsGo : Nat → List Char → List Char
  | 0, l => l
  | _ + 1, [] => []
  | fuel + 1, '<' :: 'p' :: cs =>
      match cs.dropWhile (fun c => c ≠ '>') with
      | '>' :: rest => removePTagsGo fuel rest
      | _ => '<' :: 'p' :: cs
  | fuel + 1, c :: cs => c :: removePTagsGo fuel cs

/-- JS `trim`: drop whitespace from both ends. -/
def trimChars (l : List Char) : List Char :=
  ((l.dropWhile jsWs).reverse.dropWhile jsWs).reverse

/-- The content-cleaning pipeline of `parseAndSaveResponse`:
`striptags(content, ['p'], ' ').replace(/&nbsp;/g, '')
.replace(/<p[\s\S]*?>/g, '').replace(/<\/p>/g, '\r\n').trim()`. -/
def cleanText (s : String) : String :=
  let l0 := s.toList
  let l1 := striptagsGo (l0.length + 1) l0
  let l2 := replacePat "&nbsp;".toList [] l1
  let l3 := removePTagsGo (l2.length + 1) l2
  let l4 := replacePat "</p>".toList ['\r', '\n'] l3
  String.mk (trimChars l4)

/-! ## Readability formula library

The scanner calls the npm packages `flesch`, `flesch-kincaid`,
`smog-formula`, `dale-chall-formula`, `coleman-liau`, `gunning-fog`,
`spache-formula` and `automated-readability`.  Those packages are external
collaborators (not part of this repository's sources); each is modelled from
its published formula together with its guard returning `NaN` whenever a
required count is zero (a falsy count in JS). -/

/-- Approximate rational square root (`Math.sqrt` model), exact on perfect
squares; no claim depends on its value, only on its totality. -/
def ratSqrtApprox (q : ℚ) : ℚ :=
  (Nat.sqrt (q.num.toNat * q.den) : ℚ) / (q.den : ℚ)

/-- Flesch Reading Ease (npm `flesch`): NaN on a zero count, else
`206.835 - 1.015*(word/sentence) - 84.6*(syllable/word)`. -/
def fleschF (sentence word syllable : Nat) : JSNum :=
  if sentence = 0 ∨ word = 0 ∨ syllable = 0 then .nan
  else .num (206.835 - 1.015 * ((word : ℚ) / (sentence : ℚ))
    - 84.6 * ((syllable : ℚ) / (word : ℚ)))

/-- Flesch-Kincaid grade (npm `flesch-kincaid`): NaN on a zero count, else
`0.39*(word/sentence) + 11.8*(syllable/word) - 15.59`. -/
def fleschKincaidF (sentence word syllable : Nat) : JSNum :=
  if sentence = 0 ∨ word = 0 ∨ syllable = 0 then .nan
  else .num (0.39 * ((word : ℚ) / (sentence : ℚ))
    + 11.8 * ((syllable : ℚ) / (word : ℚ)) - 15.59)

/-- SMOG index (npm `smog-formula`): NaN on a zero count, else
`3.1291 + 1.043*sqrt(polysillabicWord * (30/sentence))`. -/
def smogF (sentence polysillabicWord : Nat) : JSNum :=
  if sentence = 0 ∨ polysillabicWord = 0 then .nan
  else .num (3.1291 + 1.043 *
    ratSqrtApprox ((polysillabicWord : ℚ) * (30 / (sentence : ℚ))))

/-- Dale-Chall score (npm `dale-chall-formula`), called by the scanner with
no `difficultWord` count (so the difficult-word term is zero): NaN on a zero
count, else `0.1579*100*pdw + 0.0496*(word/sentence)` with the `+3.6365`
adjustment when the difficult-word proportion exceeds 5%. -/
def daleChallF (sentence word : Nat) : JSNum :=
  if word = 0 ∨ sentence = 0 then .nan
  else
    let pdw : ℚ := 0 / (word : ℚ)
    let score : ℚ := 0.1579 * 100 * pdw + 0.0496 * ((word : ℚ) / (sentence : ℚ))
    .num (if pdw > 0.05 then score + 3.6365 else score)

/-- JS `Math.floor` on a JS number (NaN and infinities are fixed points). -/
def jsFloor : JSNum → JSNum
  | .num q => .num ((Int.floor q : ℤ) : ℚ)
  | x => x

/-- JS comparison `x < c` for a rational threshold: false for NaN and
`Infinity`, true for `-Infinity`. -/
def jsLtNum : JSNum → ℚ → Bool
  | .num q, c => q < c
  | .nan, _ => false
  | .inf, _ => false
  | .ninf, _ => true

/-- Dale-Chall US-grade bucket (npm `dale-chall-formula`'s `gradeLevel`):
floors the score and maps it through the published grade table; every
comparison with NaN is false, so NaN falls into the top bucket. -/
def daleChallGradeLevel (score : JSNum) : JVal :=
  let r := jsFloor score
  if jsLtNum r 5 then .jpair (.num 0) (.num 4)
  else if jsLtNum r 6 then .jpair (.num 5) (.num 6)
  else if jsLtNum r 7 then .jpair (.num 7) (.num 8)
  else if jsLtNum r 8 then .jpair (.num 9) (.num 10)
  else if jsLtNum r 9 then .jpair (.num 11) (.num 12)
  else if jsLtNum r 10 then .jpair (.num 13) (.num 15)
  else .jpair (.num 16) .inf

/-- Coleman-Liau index (npm `coleman-liau`): NaN on a zero count, else
`0.0588*(100*letter/word) - 0.296*(100*sentence/word) - 15.8`. -/
def colemanLiauF (sentence word letter : Nat) : JSNum :=
  if sentence = 0 ∨ word = 0 ∨ letter = 0 then .nan
  else .num (0.0588 * (100 * (letter : ℚ) / (word : ℚ))
    - 0.296 * (100 * (sentence : ℚ) / (word : ℚ)) - 15.8)

/-- Gunning fog (npm `gunning-fog`): NaN on a zero count, else
`0.4*((word/sentence) + 100*(complexPolysillabicWord/word))`. -/
def gunningFogF (sentence word complexPolysillabicWord : Nat) : JSNum :=
  if sentence = 0 ∨ word = 0 then .nan
  else .num (0.4 * (((word : ℚ) / (sentence : ℚ))
    + 100 * ((complexPolysillabicWord : ℚ) / (word : ℚ))))

/-- Spache (npm `spache-formula`), called by the scanner with no unfamiliar
word count: NaN on a zero count, else
`0.121*(word/sentence) + 0.082*uniqueUnfamiliarWord + 0.659`. -/
def spacheF (word sentence : Nat) : JSNum :=
  if word = 0 ∨ sentence = 0 then .nan
  else .num (0.121 * ((word : ℚ) / (sentence : ℚ)) + 0.082 * 0 + 0.659)

/-- Automated readability index (npm `automated-readability`): NaN on a zero
count, else `4.71*(character/word) + 0.5*(word/sentence) - 21.43`. -/
def automatedReadabilityF (sentence word character : Nat) : JSNum :=
  if sentence = 0 ∨ word = 0 ∨ character = 0 then .nan
  else .num (4.71 * ((character : ℚ) / (word : ℚ))
    + 0.5 * ((word : ℚ) / (sentence : ℚ)) - 21.43)

/-! ## URL model -/

/-- Characters allowed after the first character of a URL scheme. -/
def schemeOkCh (c : Char) : Bool :=
  c.isAlphanum ∨ c = '+' ∨ c = '-' ∨ c = '.'

/-- Does `new URL(s)` succeed?  Modelled from WHATWG URL parsing as used by
Node: an absolute URL, i.e. a valid scheme (letter first, then
letters/digits/`+`/`-`/`.`) followed by `:`.  The empty string and
scheme-less text are rejected, as in Node. -/
def validUrl (s : String) : Bool :=
  let l := s.toList
  l.contains ':' &&
    (match l.takeWhile (fun c => c ≠ ':') with
     | [] => false
     | c :: rest => c.isAlpha && rest.all schemeOkCh)

/-- Find the first `://` in the input and return what follows it. -/
def hostnameAfter : Nat → List Char → Option (List Char)
  | _, [] => none
  | 0, _ => none
  | fuel + 1, c :: cs =>
      match matchPat "://".toList (c :: cs) with
      | some rest => some rest
      | none => hostnameAfter fuel cs

/-- `new URL(s).hostname`: the authority after `://` up to the next
delimiter, `""` when the URL has no `//` authority. -/
def hostnameOf (s : String) : String :=
  let l := s.toList
  match hostnameAfter l.length l with
  | some rest =>
      String.mk (rest.takeWhile
        (fun c => c ≠ '/' ∧ c ≠ ':' ∧ c ≠ '?' ∧ c ≠ '#'))
  | none => ""

/-! ## Article store

The `documents` collection, written only through
`collection.replaceOne({url}, json, {upsert: true})` in
`parseAndSaveResponse`.  Modelled as an ordered association list of
`url ↦ document`. -/

/-- The article store: MongoDB `documents` collection entries in insertion
order, keyed by `url`. -/
abbrev Store := List (String × Doc)

/-- `collection.replaceOne({url: k}, d, {upsert: true})`: replace the first
document matching the key in place, or append a new one. -/
def replaceOne (s : Store) (k : String) (d : Doc) : Store :=
  match s with
  | [] => [(k, d)]
  | (k', d') :: rest => if k' = k then (k, d) :: rest else (k', d') :: replaceOne rest k d

/-- Find the first stored document with the given url key. -/
def lookupDoc (s : Store) (k : String) : Option Doc :=
  match s with
  | [] => none
  | (k', d') :: rest => if k' = k then some d' else lookupDoc rest k

/-- The url keys of the store, in storage order. -/
def storeKeys (s : Store) : List String := s.map (fun kd => kd.1)

/-- Does the store contain a document with this url key? -/
def containsKey (s : Store) (k : String) : Bool := (lookupDoc s k).isSome

/-- The store invariant: at most one document per url. -/
def uniqueKeys (s : Store) : Prop := (storeKeys s).Nodup

/-- Apply a sequence of `replaceOne` upserts in order. -/
def applyWrites (ws : List (String × Doc)) (s : Store) : Store :=
  ws.foldl (fun acc w => replaceOne acc w.1 w.2) s

/-- The last write for a key in a write sequence, if any. -/
def lastWrite : List (String × Doc) → String → Option Doc
  | [], _ => none
  | w :: rest, k =>
      match lastWrite rest k with
      | some d => some d
      | none => if w.1 = k then some w.2 else none

/-- `documentCollection.countDocuments({origin: u})` from `getSources`:
the number of stored articles whose `origin` field is the source url. -/
def countArticlesForSource (s : Store) (u : String) : Nat :=
  (s.filter (fun kd => getField kd.2 "origin" = some (.jstr u))).length

/-! ## parseAndSaveResponse -/

/-- `parseAndSaveResponse(json)`: clean the content, count text statistics
with `countable`, compute per-word syllables by splitting on single spaces,
apply the eight readability formulas, stamp the analysis date, and upsert
the document by its `url`.  The write is returned as a `(url, document)`
pair instead of being applied, so a scan can thread the store; the `Except`
error cases are exactly the promise rejections of the source (the
reduce-of-empty-array throw, which is unreachable because JS
`split(' ')` never yields an empty array, and the `new URL(json.url)` throw
for an invalid url). -/
def parseAndSaveResponseW (json : Doc) (now : Nat) : Except String (String × Doc) :=
  let content := getStr json "content"
  let cleaned := cleanText content
  let paragraphs := countParagraphs cleaned.toList
  let sentence := countSentences cleaned.toList
  let word := countWords cleaned.toList
  let character := countCharacters cleaned.toList
  let syllables := syllableCount cleaned.toList
  let words := splitChar ' ' cleaned.toList
  let wordSyllables := words.map syllableCount
  match wordSyllables with
  | [] => .error "Reduce of empty array with no initial value"
  | w0 :: wrest =>
    let total := wrest.foldl (fun a b => a + b) w0
    let avgWordSyllables : ℚ := (total : ℚ) / ((w0 :: wrest).length : ℚ)
    let complexPolysillabicWord := ((w0 :: wrest).filter (fun n => 3 ≤ n)).length
    let urlStr := getStr json "url"
    if validUrl urlStr then
      let d := setField json "paragraphs" (.jnum (.num (paragraphs : ℚ)))
      let d := setField d "words" (.jnum (.num (word : ℚ)))
      let d := setField d "sentences" (.jnum (.num (sentence : ℚ)))
      let d := setField d "characters" (.jnum (.num (character : ℚ)))
      let d := setField d "syllables" (.jnum (.num (syllables : ℚ)))
      let d := setField d "word syllables" (.jnum (.num avgWordSyllables))
      let d := setField d "complex polysillabic words"
        (.jnum (.num (complexPolysillabicWord : ℚ)))
      let d := setField d "Host" (.jstr (hostnameOf urlStr))
      let d := setField d "Cleaned Data" (.jstr cleaned)
      let d := setField d "Smog" (.jnum (smogF sentence complexPolysillabicWord))
      let d := setField d "Flesch" (.jnum (fleschF sentence word syllables))
      let dc := daleChallF sentence word
      let d := setField d "Dale Chall" (.jnum dc)
      let d := setField d "Dale Chall: Grade" (daleChallGradeLevel dc)
      let d := setField d "Coleman Liau" (.jnum (colemanLiauF sentence word character))
      let d := setField d "Flesch Kincaid" (.jnum (fleschKincaidF sentence word syllables))
      let d := setField d "Gunning Fog"
        (.jnum (gunningFogF sentence word complexPolysillabicWord))
      let d := setField d "Spache" (.jnum (spacheF word sentence))
      let d := setField d "Automated Readability"
        (.jnum (automatedReadabilityF sentence word character))
      let d := setField d "date" (.jdate now)
      .ok (urlStr, d)
    else .error "Invalid URL"

/-! ## User-agent rotation -/

/-- The fixed pool of user agents (`USER_AGENTS` in the source). -/
def USER_AGENTS : List String := [
  "Mozilla/5.0 (Windows NT 10.0; Win64; x64) AppleWebKit/537.36 (KHTML, like Gecko) Chrome/119.0.0.0 Safari/537.36",
  "Mozilla/5.0 (Macintosh; Intel Mac OS X 10_15_7) AppleWebKit/537.36 (KHTML, like Gecko) Chrome/119.0.0.0 Safari/537.36",
  "Mozilla/5.0 (X11; Linux x86_64) AppleWebKit/537.36 (KHTML, like Gecko) Chrome/119.0.0.0 Safari/537.36",
  "Mozilla/5.0 (Windows NT 10.0; Win64; x64; rv:109.0) Gecko/20100101 Firefox/119.0",
  "Mozilla/5.0 (Macintosh; Intel Mac OS X 10.15; rv:109.0) Gecko/20100101 Firefox/119.0",
  "Mozilla/5.0 (Macintosh; Intel Mac OS X 10_15_7) AppleWebKit/605.1.15 (KHTML, like Gecko) Version/17.1 Safari/605.1.15"]

/-- `Math.floor(r * USER_AGENTS.length)` for a `Math.random()` draw `r`. -/
def uaIndex (r : ℚ) : Nat :=
  (Int.floor (r * (USER_AGENTS.length : ℚ))).toNat

/-- `getRandomUserAgent()`, with the `Math.random()` draw made explicit:
`USER_AGENTS[Math.floor(Math.random() * USER_AGENTS.length)]` (JS indexing
yields `undefined`, i.e. `none`, out of range). -/
def getRandomUserAgent (r : ℚ) : Option String :=
  USER_AGENTS.get? (uaIndex r)

/-! ## Single-source scanner -/

/-- The per-scan failure tracking object (`failureStats` in
`scanSingleSource`); `timeout` exists in the source but is never
incremented. -/
structure FailureStats where
  total : Nat
  http500 : Nat
  http403 : Nat
  http429 : Nat
  timeout : Nat
  noContent : Nat
  other : Nat
deriving DecidableEq, Repr

/-- The scripted outcome of one extraction-service call for one attempt:
either an HTTP response (status, optional `Retry-After` header in seconds,
and the response JSON's `url` and `content` fields, with a missing or empty
content both modelled as `""`), or a network/timeout error thrown by
`fetch`. -/
inductive Outcome where
  | resp (status : Nat) (retryAfter : Option Nat) (url : String) (content : String)
  | netErr (msg : String)
deriving DecidableEq, Repr

/-- The observable result of processing one feed item: whether the item
counted as succeeded, how many extraction calls were made, the backoff
waits performed (in ms, in order), the positions of the `Math.random()`
draws consumed for user-agent rotation, the failure stats after the item,
and the store write performed on success. -/
structure ItemOut where
  success : Bool
  calls : Nat
  waits : List Nat
  uaPos : List Nat
  stats : FailureStats
  write : Option (String × Doc)
deriving DecidableEq, Repr

/-- `maxAttempts` in `scanSingleSource`. -/
def maxAttempts : Nat := 2

/-- One round of the per-item `while (attempts < maxAttempts)` retry loop of
`scanSingleSource`, with `a` the current `attempts` counter, `pos` the next
`Math.random()` draw position, and `fuel = maxAttempts - a` (every retry
path increments `attempts`).  Branches mirror the source exactly: each
iteration draws a fresh user agent and makes one extraction call; 5xx below
the attempt limit retries after `1000*(a+1)` ms; 429 increments the
rate-limit counter, waits the `Retry-After` hint (else `attempts * 5`
seconds) and retries below the limit — at the limit the source falls
through to `response.json()` on a consumed body, which throws and exhausts
the attempts; 403/401 increments the access-denied counter and throws, and
the generic catch then retries below the limit; other non-2xx statuses
classify and throw likewise; a 2xx with empty content counts as no-content
without retry; a 2xx with content runs `parseAndSaveResponse`, whose
rejection is also retried by the generic catch. -/
def runItemGo (script : Nat → Outcome) (title : String) (pubDate : Nat)
    (sourceUrl : String) (now : Nat) :
    Nat → Nat → FailureStats → Nat → List Nat → List Nat → Nat → ItemOut
  | _, _, st, calls, waits, uas, 0 => ⟨false, calls, waits, uas, st, none⟩
  | a, pos, st, calls, waits, uas, fuel + 1 =>
    match script a with
    | .netErr _ =>
        if maxAttempts ≤ a + 1 then ⟨false, calls + 1, waits, uas ++ [pos], st, none⟩
        else runItemGo script title pubDate sourceUrl now (a + 1) (pos + 1) st
          (calls + 1) (waits ++ [1000 * (a + 1)]) (uas ++ [pos]) fuel
    | .resp status retryAfter rurl content =>
        if 200 ≤ status ∧ status < 300 then
          if content = "" then
            ⟨false, calls + 1, waits, uas ++ [pos],
              { st with noContent := st.noContent + 1 }, none⟩
          else
            let json : Doc := [("url", .jstr rurl), ("content", .jstr content)]
            let json := setField json "publication date" (.jdate pubDate)
            let json := setField json "title" (.jstr title)
            let json := setField json "origin" (.jstr sourceUrl)
            match parseAndSaveResponseW json now with
            | .ok w => ⟨true, calls + 1, waits, uas ++ [pos], st, some w⟩
            | .error _ =>
                if maxAttempts ≤ a + 1 then
                  ⟨false, calls + 1, waits, uas ++ [pos], st, none⟩
                else runItemGo script title pubDate sourceUrl now (a + 1) (pos + 1) st
                  (calls + 1) (waits ++ [1000 * (a + 1)]) (uas ++ [pos]) fuel
        else if 500 ≤ status ∧ a < maxAttempts - 1 then
          runItemGo script title pubDate sourceUrl now (a + 1) (pos + 1) st
            (calls + 1) (waits ++ [1000 * (a + 1)]) (uas ++ [pos]) fuel
        else if status = 429 then
          let st := { st with http429 := st.http429 + 1 }
          let ra := retryAfter.getD (a * 5)
          if a < maxAttempts - 1 then
            runItemGo script title pubDate sourceUrl now (a + 1) (pos + 1) st
              (calls + 1) (waits ++ [ra * 1000]) (uas ++ [pos]) fuel
          else ⟨false, calls + 1, waits ++ [ra * 1000], uas ++ [pos], st, none⟩
        else if status = 403 ∨ status = 401 then
          let st := { st with http403 := st.http403 + 1 }
          if maxAttempts ≤ a + 1 then ⟨false, calls + 1, waits, uas ++ [pos], st, none⟩
          else runItemGo script title pubDate sourceUrl now (a + 1) (pos + 1) st
            (calls + 1) (waits ++ [1000 * (a + 1)]) (uas ++ [pos]) fuel
        else if 500 ≤ status then
          let st := { st with http500 := st.http500 + 1 }
          if maxAttempts ≤ a + 1 then ⟨false, calls + 1, waits, uas ++ [pos], st, none⟩
          else runItemGo script title pubDate sourceUrl now (a + 1) (pos + 1) st
            (calls + 1) (waits ++ [1000 * (a + 1)]) (uas ++ [pos]) fuel
        else
          let st := { st with other := st.other + 1 }
          if maxAttempts ≤ a + 1 then ⟨false, calls + 1, waits, uas ++ [pos], st, none⟩
          else runItemGo script title pubDate sourceUrl now (a + 1) (pos + 1) st
            (calls + 1) (waits ++ [1000 * (a + 1)]) (uas ++ [pos]) fuel

/-- The unit of work for one feed item with a link: the retry loop starting
at `attempts = 0` with full fuel. -/
def runItem (script : Nat → Outcome) (title : String) (pubDate : Nat)
    (sourceUrl : String) (now : Nat) (pos : Nat) (st : FailureStats) : ItemOut :=
  runItemGo script title pubDate sourceUrl now 0 pos st 0 [] [] maxAttempts

/-- One item of a parsed feed (`{title, link, pubDate}` from `rss-parser`;
the publication date is modelled as a timestamp). -/
structure FeedItem where
  title : String
  link : Option String
  pubDate : Nat
deriving DecidableEq, Repr

/-- The value `scanSingleSource` resolves with.  `failed` and `error` are
optional because the source omits them on some paths (the early returns
resolve without a `failed` field, and only error paths carry `error`). -/
structure ScanRes where
  scanned : Nat
  total : Nat
  failed : Option Nat
  source : String
  error : Option String
deriving DecidableEq, Repr

/-- Process the feed items in order (item `idx` consumes script
`scripts idx`), threading the failure stats and the `Math.random()`
position; items missing a link are logged and skipped without any
extraction call (counted as failed).  The 100ms-per-5-items stagger delay
of the source is a pure timing effect and is not represented. -/
def scanItemsGo (scripts : Nat → Nat → Outcome) (sourceUrl : String) (now : Nat) :
    List FeedItem → Nat → Nat → FailureStats → List ItemOut × FailureStats × Nat
  | [], _, pos, st => ([], st, pos)
  | item :: rest, idx, pos, st =>
    match item.link with
    | none =>
        let out : ItemOut := ⟨false, 0, [], [], st, none⟩
        let r := scanItemsGo scripts sourceUrl now rest (idx + 1) pos st
        (out :: r.1, r.2)
    | some _ =>
        let out := runItem (scripts idx) item.title item.pubDate sourceUrl now pos st
        let r := scanItemsGo scripts sourceUrl now rest (idx + 1) (pos + out.calls) out.stats
        (out :: r.1, r.2)

/-- Fresh per-scan failure stats (`failureStats` initialisation). -/
def initStats (n : Nat) : FailureStats := ⟨n, 0, 0, 0, 0, 0, 0⟩

/-- `scanSingleSource(sourceUrl)`.  The feed-parse outcome and the
per-item/per-attempt extraction outcomes are parameters (they are network
effects); `pos` is the starting `Math.random()` draw position and `store`
the article store.  All error conditions resolve: an invalid source URL
resolves `{scanned: 0, total: 0, source, error: 'Invalid URL format'}`, a
feed fetch/parse failure is caught by the outer catch and resolves with the
error message, an empty feed resolves `{scanned: 0, total: 0, source}`, and
otherwise every item is processed independently, `Promise.all` collects the
boolean results, and the scan resolves
`{scanned, total, failed: total - scanned, source}`. -/
def scanSingleSource (sourceUrl : String) (feed : Except String (List FeedItem))
    (scripts : Nat → Nat → Outcome) (now : Nat) (pos : Nat) (store : Store) :
    ScanRes × Store × FailureStats :=
  if validUrl sourceUrl then
    match feed with
    | .error e => (⟨0, 0, none, sourceUrl, some e⟩, store, initStats 0)
    | .ok items =>
      if items.isEmpty then (⟨0, 0, none, sourceUrl, none⟩, store, initStats 0)
      else
        let r := scanItemsGo scripts sourceUrl now items 0 pos (initStats items.length)
        let outs := r.1
        let writes := outs.filterMap (fun o => o.write)
        let successCount := (outs.filter (fun o => o.success)).length
        (⟨successCount, items.length, some (items.length - successCount), sourceUrl, none⟩,
          applyWrites writes store, r.2.1)
  else (⟨0, 0, none, sourceUrl, some "Invalid URL format"⟩, store, initStats 0)

/-! ## Scan-all facade (`scanFeeds` inside `startCron`) -/

/-- The observable shape of one `scanFeeds()` run: how many source scans
were launched simultaneously, the per-source results the inner handlers
log, and the function's return value. -/
structure ScanFeedsRun where
  launched : Nat
  logged : List ScanRes
  returned : Option (List ScanRes)
deriving DecidableEq, Repr

/-- `scanFeeds()`: loads every configured source url and runs
`Promise.all(urlList.map(async (url) => ...))` over all of them — each
mapped async function starts (and issues its `scanSingleSource` call)
before any is awaited, so `launched` is the whole list's length with no
concurrency bound.  Each inner handler only logs its `ScanResult`
(`logged`); `scanFeeds` itself returns `undefined` (`returned = none`).
Store writes are threaded in list order (all article upserts are
independent per-url `replaceOne`s). -/
def scanFeeds (urls : List String) (feedOf : String → Except String (List FeedItem))
    (scripts : String → Nat → Nat → Outcome) (now : Nat) (store : Store) :
    ScanFeedsRun × Store :=
  let step := fun (acc : List ScanRes × Store) (url : String) =>
    let r := scanSingleSource url (feedOf url) (scripts url) now 0 acc.2
    (acc.1 ++ [r.1], r.2.1)
  let finalAcc := urls.foldl step ([], store)
  (⟨urls.length, finalAcc.1, none⟩, finalAcc.2)

/-! ## Source management (`editSource`) -/

/-- The `urls` collection: source documents keyed by their Mongo `_id`. -/
abbrev SourceStore := List (Nat × Doc)

/-- `collection.updateOne({_id: id}, {$set: fields})`: merge the given
fields into the first matching document, leaving every other field of the
document (and every other document) untouched. -/
def updateOneSet (s : SourceStore) (id : Nat) (fields : List (String × JVal)) : SourceStore :=
  match s with
  | [] => []
  | (id', d) :: rest =>
      if id' = id then (id', fields.foldl (fun acc f => setField acc f.1 f.2) d) :: rest
      else (id', d) :: updateOneSet rest id fields

/-- Find the first source document with the given `_id`. -/
def lookupSource (s : SourceStore) (id : Nat) : Option Doc :=
  match s with
  | [] => none
  | (id', d) :: rest => if id' = id then some d else lookupSource rest id

/-- `editSource` (the store mutation of the `/sources/edit/:id` handler):
rejects a missing url with no write, otherwise `$set`s exactly
`url`, `name` (defaulting to the url's hostname), `description`
(defaulting to `''`) and `lastModified = new Date()` on the document with
the given id.  The immediate rescan it then triggers touches only the
article store, not the source document. -/
def editSource (s : SourceStore) (id : Nat) (url name description : String)
    (now : Nat) : SourceStore :=
  if url = "" then s
  else updateOneSet s id
    [("url", .jstr url),
     ("name", .jstr (if name = "" then hostnameOf url else name)),
     ("description", .jstr description),
     ("lastModified", .jdate now)]

/-! ## Re-analysis timestamp helpers

Re-scanning an unchanged feed recomputes each article document from the
same inputs except for the `date` analysis timestamp (`json['date'] =
new Date()`), so the second scan's writes are the first scan's writes with
the `date` field restamped. -/

/-- Restamp the `date` (analysis time) field of a document. -/
def redate (now : Nat) (d : Doc) : Doc := setField d "date" (.jdate now)

/-- Restamp the `date` field of a store write. -/
def retimeW (now : Nat) (w : String × Doc) : String × Doc := (w.1, redate now w.2)

/-- Restamp the `date` field of an item outcome's write. -/
def retimeOut (now : Nat) (o : ItemOut) : ItemOut :=
  { o with write := o.write.map (retimeW now) }

/-! ## Concrete scan scenarios used to settle individual claims -/

/-- A three-item feed: used for the end-to-end failure-classification
scenario (one 403 item, one good item, one empty-content item). -/
def c2Feed : List FeedItem :=
  [⟨"A", some "https://a.example/1", 10⟩,
   ⟨"B", some "https://a.example/2", 11⟩,
   ⟨"C", some "https://a.example/3", 12⟩]

/-- Extraction outcomes for `c2Feed`: item 0 answers HTTP 403 on every
attempt, item 1 answers HTTP 200 with valid content, item 2 answers
HTTP 200 with empty content. -/
def c2Scripts : Nat → Nat → Outcome := fun i _ =>
  if i = 0 then .resp 403 none "" ""
  else if i = 1 then .resp 200 none "https://a.example/2" "Hello world."
  else .resp 200 none "https://a.example/3" ""

/-- A one-item feed whose extraction succeeds on the first attempt. -/
def c3Feed : List FeedItem := [⟨"A", some "https://a.example/1", 10⟩]

/-- Extraction outcome for `c3Feed`: HTTP 200 with stable content. -/
def c3Scripts : Nat → Nat → Outcome := fun _ _ =>
  .resp 200 none "https://a.example/1" "Hello world."

/-- An extraction-service response whose content is truthy (a single
space) but whose cleaned text contains zero words. -/
def c4Json : Doc := [("url", .jstr "https://a.example/z"), ("content", .jstr " ")]

/-- Six configured sources (all with unparseable feeds; only the launch
count matters). -/
def c7Urls : List String :=
  ["https://a.example/f", "https://b.example/f", "https://c.example/f",
   "https://d.example/f", "https://e.example/f", "https://g.example/f"]

/-! ## Lemmas about documents (JS objects) -/

/-- Reading a field just assigned yields the assigned value. -/
@[simp] theorem getField_setField_self (d : Doc) (k : String) (v : JVal) :
    getField (setField d k v) k = some v := by
  induction d with
  | nil => simp [setField, getField]
  | cons kv rest ih =>
    obtain ⟨k', v'⟩ := kv
    by_cases h : k' = k <;> simp [setField, getField, h, ih]

/-- Assigning one field leaves every other field unchanged. -/
theorem getField_setField_ne (d : Doc) (k f : String) (v : JVal) (h : f ≠ k) :
    getField (setField d k v) f = getField d f := by
  induction d with
  | nil => simp [setField, getField, h.symm]
  | cons kv rest ih =>
    obtain ⟨k', v'⟩ := kv
    by_cases hk : k' = k
    · subst hk
      simp [setField, getField, h.symm]
    · simp [setField, getField, hk, ih]

/-- Assigning the same field twice keeps only the last value. -/
theorem setField_setField_same (d : Doc) (k : String) (v v' : JVal) :
    setField (setField d k v) k v' = setField d k v' := by
  induction d with
  | nil => simp [setField]
  | cons kv rest ih =>
    obtain ⟨k', w⟩ := kv
    by_cases h : k' = k <;> simp [setField, h, ih]

/-! ## Lemmas about the article store -/

/-- Upserting a document and reading it back by its key yields exactly the
new document: full replacement, never a merge with the old fields. -/
theorem lookupDoc_replaceOne_self (s : Store) (k : String) (d : Doc) :
    lookupDoc (replaceOne s k d) k = some d := by
  induction s with
  | nil => simp [replaceOne, lookupDoc]
  | cons kd rest ih =>
    obtain ⟨k', d'⟩ := kd
    by_cases h : k' = k <;> simp [replaceOne, lookupDoc, h, ih]

/-- Upserting one url leaves every other url's document unchanged. -/
theorem lookupDoc_replaceOne_ne (s : Store) (k q : String) (d : Doc) (h : q ≠ k) :
    lookupDoc (replaceOne s k d) q = lookupDoc s q := by
  induction s with
  | nil => simp [replaceOne, lookupDoc, h.symm]
  | cons kd rest ih =>
    obtain ⟨k', d'⟩ := kd
    by_cases hk : k' = k
    · subst hk
      simp [replaceOne, lookupDoc, h.symm]
    · simp [replaceOne, lookupDoc, hk, ih]

/-- Membership of a key in the store is membership in its key list. -/
theorem containsKey_iff_mem (s : Store) (k : String) :
    containsKey s k = true ↔ k ∈ storeKeys s := by
  induction s with
  | nil => simp [containsKey, lookupDoc, storeKeys]
  | cons kd rest ih =>
    obtain ⟨k', d'⟩ := kd
    by_cases h : k' = k
    · subst h
      simp [containsKey, lookupDoc, storeKeys]
    · have e1 : containsKey ((k', d') :: rest) k = containsKey rest k := by
        simp [containsKey, lookupDoc, h]
      rw [e1, ih]
      simp [storeKeys, Ne.symm h]

/-- A key not present in the store has no document. -/
theorem lookupDoc_eq_none_of_not_mem (s : Store) (k : String)
    (h : k ∉ storeKeys s) : lookupDoc s k = none := by
  cases hl : lookupDoc s k with
  | none => rfl
  | some d =>
      exact absurd ((containsKey_iff_mem s k).mp (by simp [containsKey, hl])) h

/-- Upserting an existing key preserves the key list exactly. -/
theorem storeKeys_replaceOne_mem (s : Store) (k : String) (d : Doc)
    (h : containsKey s k = true) :
    storeKeys (replaceOne s k d) = storeKeys s := by
  induction s with
  | nil => simp [containsKey, lookupDoc] at h
  | cons kd rest ih =>
    obtain ⟨k', d'⟩ := kd
    by_cases hk : k' = k
    · simp [replaceOne, storeKeys, hk]
    · have h' : containsKey rest k = true := by
        simpa [containsKey, lookupDoc, hk] using h
      have e := ih h'
      simp only [storeKeys] at e
      simp [replaceOne, storeKeys, hk, e]

/-- Upserting a fresh key appends it to the key list. -/
theorem storeKeys_replaceOne_not_mem (s : Store) (k : String) (d : Doc)
    (h : ¬ containsKey s k = true) :
    storeKeys (replaceOne s k d) = storeKeys s ++ [k] := by
  induction s with
  | nil => simp [replaceOne, storeKeys]
  | cons kd rest ih =>
    obtain ⟨k', d'⟩ := kd
    by_cases hk : k' = k
    · exfalso
      exact h (by simp [containsKey, lookupDoc, hk])
    · have h' : ¬ containsKey rest k = true := by
        intro hc
        exact h (by simpa [containsKey, lookupDoc, hk] using hc)
      have e := ih h'
      simp only [storeKeys] at e
      simp [replaceOne, storeKeys, hk, e]

/-- `replaceOne` preserves the at-most-one-document-per-url invariant. -/
theorem uniqueKeys_replaceOne (s : Store) (k : String) (d : Doc)
    (h : uniqueKeys s) : uniqueKeys (replaceOne s k d) := by
  by_cases hc : containsKey s k = true
  · rw [uniqueKeys, storeKeys_replaceOne_mem s k d hc]
    exact h
  · rw [uniqueKeys, storeKeys_replaceOne_not_mem s k d hc]
    have hk : k ∉ storeKeys s := fun hm => hc ((containsKey_iff_mem s k).mpr hm)
    simpa [List.nodup_append, hk] using h

/-- A key present in the store stays present after any upsert. -/
theorem containsKey_replaceOne_of_containsKey (s : Store) (k q : String) (d : Doc)
    (h : containsKey s q = true) : containsKey (replaceOne s k d) q = true := by
  by_cases hq : q = k
  · subst hq
    simp [containsKey, lookupDoc_replaceOne_self]
  · simpa [containsKey, lookupDoc_replaceOne_ne s k q d hq] using h

/-- Reading through a sequence of upserts: the last write for the key wins,
and otherwise the original store answers. -/
theorem lookupDoc_applyWrites (ws : List (String × Doc)) (s : Store) (k : String) :
    lookupDoc (applyWrites ws s) k = (lastWrite ws k).elim (lookupDoc s k) some := by
  induction ws generalizing s with
  | nil => simp [applyWrites, lastWrite]
  | cons w rest ih =>
    have step : applyWrites (w :: rest) s = applyWrites rest (replaceOne s w.1 w.2) := rfl
    rw [step, ih]
    cases hlw : lastWrite rest k with
    | some d => simp [lastWrite, hlw]
    | none =>
      by_cases hk : w.1 = k
      · subst hk
        simp [lastWrite, hlw, lookupDoc_replaceOne_self]
      · simp [lastWrite, hlw, hk, lookupDoc_replaceOne_ne s w.1 k w.2 (fun e => hk e.symm)]

/-- A key has a last write exactly when it occurs among the writes. -/
theorem lastWrite_isSome_iff (ws : List (String × Doc)) (k : String) :
    (lastWrite ws k).isSome = true ↔ k ∈ ws.map (fun w => w.1) := by
  induction ws with
  | nil => simp [lastWrite]
  | cons w rest ih =>
    cases hlw : lastWrite rest k with
    | some d =>
        have hm : k ∈ rest.map (fun w => w.1) := ih.mp (by simp [hlw])
        simp [lastWrite, hlw, hm]
    | none =>
        by_cases hk : w.1 = k
        · simp [lastWrite, hlw, hk]
        · have hm : ¬ k ∈ rest.map (fun w => w.1) := by
            intro hm
            have hs := ih.mpr hm
            simp [hlw] at hs
          simp [lastWrite, hlw, hk, hm, Ne.symm hk]

/-- Restamping writes does not change which write is last, only its
document's `date` field. -/
theorem lastWrite_map_retime (ws : List (String × Doc)) (k : String) (now : Nat) :
    lastWrite (ws.map (retimeW now)) k = (lastWrite ws k).map (redate now) := by
  induction ws with
  | nil => simp [lastWrite]
  | cons w rest ih =>
    cases hlw : lastWrite rest k with
    | some d => simp [lastWrite, retimeW, ih, hlw]
    | none =>
      by_cases hk : w.1 = k <;> simp [lastWrite, retimeW, ih, hlw, hk]

/-- When every written key already exists in the store, a sequence of
upserts leaves the key list untouched (no duplicates are ever created). -/
theorem storeKeys_applyWrites_of_contained (ws : List (String × Doc)) (s : Store)
    (h : ∀ w ∈ ws, containsKey s w.1 = true) :
    storeKeys (applyWrites ws s) = storeKeys s := by
  induction ws generalizing s with
  | nil => simp [applyWrites]
  | cons w rest ih =>
    have step : applyWrites (w :: rest) s = applyWrites rest (replaceOne s w.1 w.2) := rfl
    rw [step, ih]
    · exact storeKeys_replaceOne_mem s w.1 w.2 (h w (by simp))
    · intro w' hw'
      exact containsKey_replaceOne_of_containsKey s w.1 w'.1 w.2 (h w' (by simp [hw']))

/-- A sequence of upserts preserves the unique-url invariant. -/
theorem uniqueKeys_applyWrites (ws : List (String × Doc)) (s : Store)
    (h : uniqueKeys s) : uniqueKeys (applyWrites ws s) := by
  induction ws generalizing s with
  | nil => simpa [applyWrites] using h
  | cons w rest ih =>
    have step : applyWrites (w :: rest) s = applyWrites rest (replaceOne s w.1 w.2) := rfl
    rw [step]
    exact ih _ (uniqueKeys_replaceOne s w.1 w.2 h)

/-- Two stores with the same (duplicate-free) key list whose documents are
pointwise related by `R` are entrywise related. -/
theorem forall2_of_keys_lookup (R : Doc → Doc → Prop) :
    ∀ (s t : Store), storeKeys s = storeKeys t → (storeKeys t).Nodup →
      (∀ k d₁ d₂, lookupDoc s k = some d₁ → lookupDoc t k = some d₂ → R d₁ d₂) →
      List.Forall₂ (fun a b => a.1 = b.1 ∧ R a.2 b.2) s t := by
  intro s
  induction s with
  | nil =>
    intro t hk _ _
    cases t with
    | nil => exact List.Forall₂.nil
    | cons b t' => simp [storeKeys] at hk
  | cons a s' ih =>
    intro t hk hnd hR
    cases t with
    | nil => simp [storeKeys] at hk
    | cons b t' =>
      obtain ⟨k, d⟩ := a
      obtain ⟨k₂, d₂⟩ := b
      have hk' : k = k₂ ∧ storeKeys s' = storeKeys t' := by
        simpa [storeKeys] using hk
      obtain ⟨hkk, hks⟩ := hk'
      subst hkk
      have hnd' : k ∉ storeKeys t' ∧ (storeKeys t').Nodup := by
        simpa [storeKeys] using hnd
      refine List.Forall₂.cons
        ⟨rfl, hR k d d₂ (by simp [lookupDoc]) (by simp [lookupDoc])⟩
        (ih t' hks hnd'.2 ?_)
      intro q e₁ e₂ h₁ h₂
      by_cases hq : q = k
      · subst hq
        rw [lookupDoc_eq_none_of_not_mem t' q hnd'.1] at h₂
        cases h₂
      · have l1 : lookupDoc ((k, d) :: s') q = lookupDoc s' q := by
          simp [lookupDoc, Ne.symm hq]
        have l2 : lookupDoc ((k, d₂) :: t') q = lookupDoc t' q := by
          simp [lookupDoc, Ne.symm hq]
        exact hR q e₁ e₂ (l1.trans h₁) (l2.trans h₂)

/-- Entrywise-related stores (equal keys, documents equal outside the
analysis timestamp) count the same number of articles per source. -/
theorem countArticles_eq_of_forall2 (u : String) (s t : Store)
    (h : List.Forall₂ (fun (a b : String × Doc) =>
      a.1 = b.1 ∧ ∀ f, f ≠ "date" → getField a.2 f = getField b.2 f) s t) :
    countArticlesForSource s u = countArticlesForSource t u := by
  induction h with
  | nil => rfl
  | @cons a b l₁ l₂ hab htl ih =>
    have horigin : getField a.2 "origin" = getField b.2 "origin" :=
      hab.2 "origin" (by decide)
    simp only [countArticlesForSource] at ih ⊢
    by_cases hp : getField a.2 "origin" = some (JVal.jstr u)
    · have hpb : getField b.2 "origin" = some (JVal.jstr u) := horigin.symm.trans hp
      simp [List.filter_cons, hp, hpb, ih]
    · have hpb : ¬ getField b.2 "origin" = some (JVal.jstr u) :=
        fun hh => hp (horigin.trans hh)
      simp [List.filter_cons, hp, hpb, ih]

/-! ## Lemmas relating re-analysis at different times -/

/-- Restamping preserves the success flag. -/
@[simp] theorem retimeOut_success (now : Nat) (o : ItemOut) :
    (retimeOut now o).success = o.success := rfl

/-- Restamping preserves the call count. -/
@[simp] theorem retimeOut_calls (now : Nat) (o : ItemOut) :
    (retimeOut now o).calls = o.calls := rfl

/-- Restamping preserves the failure stats. -/
@[simp] theorem retimeOut_stats (now : Nat) (o : ItemOut) :
    (retimeOut now o).stats = o.stats := rfl

/-- Restamping preserves the wait list. -/
@[simp] theorem retimeOut_waits (now : Nat) (o : ItemOut) :
    (retimeOut now o).waits = o.waits := rfl

/-- Restamping preserves the consumed random draws. -/
@[simp] theorem retimeOut_uaPos (now : Nat) (o : ItemOut) :
    (retimeOut now o).uaPos = o.uaPos := rfl

/-- Restamping maps the write's document through `redate`. -/
@[simp] theorem retimeOut_write (now : Nat) (o : ItemOut) :
    (retimeOut now o).write = o.write.map (retimeW now) := rfl

/-- Analysing the same response at a different time produces the same
result with only the `date` field restamped (every other computed field is
a function of the response alone). -/
theorem parseAndSaveResponseW_retime (json : Doc) (n₁ n₂ : Nat) :
    parseAndSaveResponseW json n₂ = (parseAndSaveResponseW json n₁).map (retimeW n₂) := by
  simp only [parseAndSaveResponseW]
  generalize (List.map syllableCount (splitChar ' ' (cleanText (getStr json "content")).toList)) = ws
  cases ws with
  | nil => rfl
  | cons w0 wrest =>
    by_cases hv : validUrl (getStr json "url") = true
    · simp [hv, Except.map, retimeW, redate, setField_setField_same]
    · simp [hv, Except.map]

set_option maxHeartbeats 1600000 in
/-- Running an item's retry loop at a different analysis time yields the
identical outcome except that its store write (if any) is restamped. -/
theorem runItemGo_retime (script : Nat → Outcome) (title : String) (pubDate : Nat)
    (sourceUrl : String) (n₁ n₂ : Nat) :
    ∀ fuel a pos st calls waits uas,
      runItemGo script title pubDate sourceUrl n₂ a pos st calls waits uas fuel =
        retimeOut n₂ (runItemGo script title pubDate sourceUrl n₁ a pos st calls waits uas fuel) := by
  intro fuel
  induction fuel with
  | zero => intro a pos st calls waits uas; simp [runItemGo, retimeOut]
  | succ fuel ih =>
    intro a pos st calls waits uas
    simp only [runItemGo]
    cases hsc : script a with
    | netErr msg => split_ifs with h <;> simp [ih, retimeOut]
    | resp status retryAfter rurl content =>
      by_cases h2xx : 200 ≤ status ∧ status < 300
      · by_cases hc : content = ""
        · simp [h2xx, hc, retimeOut]
        · simp only [h2xx, hc, if_true, if_false, ite_true, ite_false]
          rw [parseAndSaveResponseW_retime
            (setField (setField (setField
              [("url", JVal.jstr rurl), ("content", JVal.jstr content)]
              "publication date" (JVal.jdate pubDate)) "title" (JVal.jstr title))
              "origin" (JVal.jstr sourceUrl)) n₁ n₂]
          cases hps : parseAndSaveResponseW
            (setField (setField (setField
              [("url", JVal.jstr rurl), ("content", JVal.jstr content)]
              "publication date" (JVal.jdate pubDate)) "title" (JVal.jstr title))
              "origin" (JVal.jstr sourceUrl)) n₁ with
          | ok w => simp [Except.map, retimeOut]
          | error e => split_ifs with h <;> simp [Except.map, ih, retimeOut]
      · simp only [h2xx, if_false, ite_false]
        split_ifs with h1 h2 h3 h4 h5 <;> simp [ih, retimeOut]

set_option maxHeartbeats 1600000 in
/-- Scanning the same items at a different analysis time yields the same
outcomes (success flags, stats, call counts) with restamped writes. -/
theorem scanItemsGo_retime (scripts : Nat → Nat → Outcome) (sourceUrl : String)
    (n₁ n₂ : Nat) :
    ∀ (items : List FeedItem) (idx pos : Nat) (st : FailureStats),
      scanItemsGo scripts sourceUrl n₂ items idx pos st =
        ((scanItemsGo scripts sourceUrl n₁ items idx pos st).1.map (retimeOut n₂),
         (scanItemsGo scripts sourceUrl n₁ items idx pos st).2) := by
  intro items
  induction items with
  | nil => intro idx pos st; simp [scanItemsGo]
  | cons item rest ih =>
    intro idx pos st
    cases hl : item.link with
    | none => simp [scanItemsGo, hl, ih, retimeOut]
    | some l =>
      have hout : runItem (scripts idx) item.title item.pubDate sourceUrl n₂ pos st =
          retimeOut n₂ (runItem (scripts idx) item.title item.pubDate sourceUrl n₁ pos st) :=
        runItemGo_retime (scripts idx) item.title item.pubDate sourceUrl n₁ n₂
          maxAttempts 0 pos st 0 [] []
      simp [scanItemsGo, hl, runItem] at hout ⊢
      simp [hout, ih]

set_option maxHeartbeats 1600000 in
/-- An item counts as succeeded exactly when it produced a store write. -/
theorem runItemGo_success_iff_write (script : Nat → Outcome) (title : String)
    (pubDate : Nat) (sourceUrl : String) (now : Nat) :
    ∀ fuel a pos st calls waits uas,
      (runItemGo script title pubDate sourceUrl now a pos st calls waits uas fuel).success =
        (runItemGo script title pubDate sourceUrl now a pos st calls waits uas fuel).write.isSome := by
  intro fuel
  induction fuel with
  | zero => intro a pos st calls waits uas; simp [runItemGo]
  | succ fuel ih =>
    intro a pos st calls waits uas
    simp only [runItemGo]
    cases hsc : script a with
    | netErr msg => split_ifs with h <;> simp [ih]
    | resp status retryAfter rurl content =>
      by_cases h2xx : 200 ≤ status ∧ status < 300
      · by_cases hc : content = ""
        · simp [h2xx, hc]
        · simp only [h2xx, hc, if_true, if_false, ite_true, ite_false]
          cases hps : parseAndSaveResponseW
            (setField (setField (setField
              [("url", JVal.jstr rurl), ("content", JVal.jstr content)]
              "publication date" (JVal.jdate pubDate)) "title" (JVal.jstr title))
              "origin" (JVal.jstr sourceUrl)) now with
          | ok w => simp
          | error e => split_ifs with h <;> simp [ih]
      · simp only [h2xx, if_false, ite_false]
        split_ifs with h1 h2 h3 h4 h5 <;> simp [ih]

/-- Packaging step for the fresh-draw lemma: one more call consumes the
draw at `pos` and then continues at `pos + 1`. -/
theorem uaStep (X : ItemOut) (calls pos n : Nat) (uas : List Nat)
    (hc : X.calls = calls + 1 + n)
    (hu : X.uaPos = (uas ++ [pos]) ++ List.range' (pos + 1) n) :
    ∃ m, X.calls = calls + m ∧ X.uaPos = uas ++ List.range' pos m := by
  refine ⟨n + 1, by omega, ?_⟩
  rw [hu, List.range'_succ]
  simp

set_option maxHeartbeats 1600000 in
/-- The retry loop consumes one fresh `Math.random()` draw per extraction
call, at consecutive stream positions starting from `pos`. -/
theorem runItemGo_uaPos (script : Nat → Outcome) (title : String) (pubDate : Nat)
    (sourceUrl : String) (now : Nat) :
    ∀ fuel a pos st calls waits uas, ∃ n,
      (runItemGo script title pubDate sourceUrl now a pos st calls waits uas fuel).calls =
        calls + n ∧
      (runItemGo script title pubDate sourceUrl now a pos st calls waits uas fuel).uaPos =
        uas ++ List.range' pos n := by
  intro fuel
  induction fuel with
  | zero =>
    intro a pos st calls waits uas
    exact ⟨0, by simp [runItemGo], by simp [runItemGo]⟩
  | succ fuel ih =>
    intro a pos st calls waits uas
    simp only [runItemGo]
    cases hsc : script a with
    | netErr msg =>
      split_ifs with h
      all_goals first
        | (refine ⟨1, ?_, ?_⟩ <;> (simp [List.range'_one]; done))
        | (obtain ⟨n, hcn, hu⟩ := ih (a + 1) (pos + 1) _ (calls + 1) _ (uas ++ [pos]);
           exact uaStep _ calls pos n uas hcn hu)
    | resp status retryAfter rurl content =>
      by_cases h2xx : 200 ≤ status ∧ status < 300
      · by_cases hc : content = ""
        · exact ⟨1, by simp [h2xx, hc], by simp [h2xx, hc, List.range'_one]⟩
        · simp only [h2xx, hc, if_true, if_false, ite_true, ite_false]
          cases hps : parseAndSaveResponseW
            (setField (setField (setField
              [("url", JVal.jstr rurl), ("content", JVal.jstr content)]
              "publication date" (JVal.jdate pubDate)) "title" (JVal.jstr title))
              "origin" (JVal.jstr sourceUrl)) now with
          | ok w => exact ⟨1, by simp, by simp [List.range'_one]⟩
          | error e =>
            split_ifs with h
            all_goals first
              | (refine ⟨1, ?_, ?_⟩ <;> (simp [List.range'_one]; done))
              | (obtain ⟨n, hcn, hu⟩ := ih (a + 1) (pos + 1) _ (calls + 1) _ (uas ++ [pos]);
                 exact uaStep _ calls pos n uas hcn hu)
      · simp only [h2xx, if_false, ite_false]
        split_ifs with h1 h2 h3 h4 h5
        all_goals first
          | (refine ⟨1, ?_, ?_⟩ <;> (simp [List.range'_one]; done))
          | (obtain ⟨n, hcn, hu⟩ := ih (a + 1) (pos + 1) _ (calls + 1) _ (uas ++ [pos]);
             exact uaStep _ calls pos n uas hcn hu)

/-! ## User-agent rotation lemmas -/

/-- The pool has six user agents, so the index is `⌊r * 6⌋`. -/
theorem uaIndex_eq (r : ℚ) : uaIndex r = (Int.floor (r * 6)).toNat := by
  norm_num [uaIndex, USER_AGENTS]

/-- Any in-range `Math.random()` draw selects a member of the pool. -/
theorem getRandomUserAgent_mem (r : ℚ) (h0 : 0 ≤ r) (h1 : r < 1) :
    ∃ ua, getRandomUserAgent r = some ua ∧ ua ∈ USER_AGENTS := by
  have h6 : r * 6 < 6 := by nlinarith
  have h0' : (0 : ℚ) ≤ r * 6 := by positivity
  have hflt : Int.floor (r * 6) < 6 := Int.floor_lt.mpr (by exact_mod_cast h6)
  have h0f : 0 ≤ Int.floor (r * 6) := Int.floor_nonneg.mpr h0'
  have hlt : uaIndex r < USER_AGENTS.length := by
    rw [uaIndex_eq]
    have : USER_AGENTS.length = 6 := by simp [USER_AGENTS]
    omega
  refine ⟨USER_AGENTS.get ⟨uaIndex r, hlt⟩, ?_, List.get_mem USER_AGENTS (uaIndex r) hlt⟩
  simp [getRandomUserAgent, List.get?_eq_get hlt]

/-- The set of draws selecting pool index `k` is exactly the interval
`[k/6, (k+1)/6)`: all six preimages are intervals of equal length `1/6`,
so the rotation is uniform over the pool. -/
theorem uaIndex_uniform (k : Nat) (hk : k < USER_AGENTS.length) (r : ℚ) :
    (0 ≤ r ∧ r < 1 ∧ uaIndex r = k) ↔ ((k : ℚ) / 6 ≤ r ∧ r < ((k : ℚ) + 1) / 6) := by
  have hk6 : k < 6 := by
    have : USER_AGENTS.length = 6 := by simp [USER_AGENTS]
    omega
  rw [uaIndex_eq]
  constructor
  · rintro ⟨h0, h1, hidx⟩
    have h0f : 0 ≤ Int.floor (r * 6) := Int.floor_nonneg.mpr (by positivity)
    have hfl : Int.floor (r * 6) = (k : ℤ) := by omega
    have hlow : ((k : ℤ) : ℚ) ≤ r * 6 := hfl ▸ Int.floor_le (r * 6)
    have hhigh : r * 6 < (k : ℚ) + 1 := by
      have hlt1 := Int.lt_floor_add_one (r * 6)
      rw [hfl] at hlt1
      exact_mod_cast hlt1
    constructor
    · rw [div_le_iff (by norm_num : (0 : ℚ) < 6)]
      exact_mod_cast hlow
    · rw [lt_div_iff (by norm_num : (0 : ℚ) < 6)]
      exact hhigh
  · rintro ⟨hl, hh⟩
    have hl6 : (k : ℚ) ≤ r * 6 := by
      rwa [div_le_iff (by norm_num : (0 : ℚ) < 6)] at hl
    have hh6 : r * 6 < (k : ℚ) + 1 := by
      rwa [lt_div_iff (by norm_num : (0 : ℚ) < 6)] at hh
    have hk5 : (k : ℚ) ≤ 5 := by
      have : k ≤ 5 := by omega
      exact_mod_cast this
    have h0 : 0 ≤ r := by
      have hknn : (0 : ℚ) ≤ (k : ℚ) := by positivity
      nlinarith
    have h1 : r < 1 := by nlinarith
    refine ⟨h0, h1, ?_⟩
    have hfl : Int.floor (r * 6) = (k : ℤ) := by
      rw [Int.floor_eq_iff]
      constructor
      · exact_mod_cast hl6
      · push_cast
        exact hh6
    simp [hfl]

/-! ## Aggregation lemmas for the single-source scanner -/

/-- Every resolution path of `scanSingleSource` reports the requested
source url. -/
theorem scanSingleSource_source (u : String) (feed : Except String (List FeedItem))
    (scripts : Nat → Nat → Outcome) (now pos : Nat) (store : Store) :
    (scanSingleSource u feed scripts now pos store).1.source = u := by
  by_cases hv : validUrl u = true
  · cases feed with
    | error e => simp [scanSingleSource, hv]
    | ok items =>
      by_cases hi : items.isEmpty <;> simp [scanSingleSource, hv, hi]
  · simp [scanSingleSource, hv]

/-- One outcome is produced per feed item. -/
theorem scanItemsGo_length (scripts : Nat → Nat → Outcome) (sourceUrl : String)
    (now : Nat) :
    ∀ (items : List FeedItem) (idx pos : Nat) (st : FailureStats),
      (scanItemsGo scripts sourceUrl now items idx pos st).1.length = items.length := by
  intro items
  induction items with
  | nil => intro idx pos st; simp [scanItemsGo]
  | cons item rest ih =>
    intro idx pos st
    cases hl : item.link <;> simp [scanItemsGo, hl, ih]

/-- An item with no link is skipped and counted as failed. -/
theorem scanItemsGo_missing_link (scripts : Nat → Nat → Outcome) (sourceUrl : String)
    (now : Nat) :
    ∀ (items : List FeedItem) (idx pos : Nat) (st : FailureStats),
      List.Forall₂ (fun (item : FeedItem) (o : ItemOut) => item.link = none → o.success = false)
        items (scanItemsGo scripts sourceUrl now items idx pos st).1 := by
  intro items
  induction items with
  | nil => intro idx pos st; simp [scanItemsGo]
  | cons item rest ih =>
    intro idx pos st
    cases hl : item.link with
    | none =>
      simp only [scanItemsGo, hl]
      exact List.Forall₂.cons (fun _ => rfl) (ih (idx + 1) pos st)
    | some l =>
      simp only [scanItemsGo, hl]
      exact List.Forall₂.cons (fun hnone => by rw [hl] at hnone; cases hnone)
        (ih (idx + 1)
          (pos + (runItem (scripts idx) item.title item.pubDate sourceUrl now pos st).calls)
          (runItem (scripts idx) item.title item.pubDate sourceUrl now pos st).stats)

/-- Every reported item outcome succeeds exactly when its article write was
performed. -/
theorem scanItemsGo_success_iff_write (scripts : Nat → Nat → Outcome) (sourceUrl : String)
    (now : Nat) :
    ∀ (items : List FeedItem) (idx pos : Nat) (st : FailureStats),
      ∀ o ∈ (scanItemsGo scripts sourceUrl now items idx pos st).1,
        o.success = o.write.isSome := by
  intro items
  induction items with
  | nil => intro idx pos st o ho; simp [scanItemsGo] at ho
  | cons item rest ih =>
    intro idx pos st o ho
    cases hl : item.link with
    | none =>
      rw [scanItemsGo, hl] at ho
      simp at ho
      rcases ho with h | h
      · subst h; rfl
      · exact ih (idx + 1) pos st o h
    | some l =>
      rw [scanItemsGo, hl] at ho
      simp at ho
      rcases ho with h | h
      · subst h
        exact runItemGo_success_iff_write (scripts idx) item.title item.pubDate
          sourceUrl now maxAttempts 0 pos st 0 [] []
      · exact ih (idx + 1) _ _ o h

/-! ## JavaScript split never yields an empty array -/

/-- `splitCharGo` always returns at least one segment. -/
theorem splitCharGo_ne_nil (sep : Char) :
    ∀ (l acc : List Char), splitCharGo sep l acc ≠ [] := by
  intro l
  induction l with
  | nil => intro acc; simp [splitCharGo]
  | cons c cs ih =>
    intro acc
    by_cases h : c = sep <;> simp [splitCharGo, h, ih]

/-- JS `str.split(' ')` never yields an empty array (the empty string
splits to `[""]`), so the per-word syllable reduce never throws. -/
theorem splitChar_ne_nil (sep : Char) (l : List Char) : splitChar sep l ≠ [] :=
  splitCharGo_ne_nil sep l []

/-- When the response url is valid, the analysis always completes and
produces a write keyed by that url — there is no zero-word (or any other)
content guard on this path. -/
theorem parseAndSaveResponseW_ok (json : Doc) (now : Nat)
    (hv : validUrl (getStr json "url") = true) :
    ∃ d, parseAndSaveResponseW json now = .ok (getStr json "url", d) := by
  simp only [parseAndSaveResponseW]
  generalize hws : (List.map syllableCount
    (splitChar ' ' (cleanText (getStr json "content")).toList)) = ws
  cases ws with
  | nil =>
    exfalso
    exact splitChar_ne_nil ' ' (cleanText (getStr json "content")).toList
      (by simpa using hws)
  | cons w0 wrest =>
    simp [hv]

/-! ## Scan-all lemmas -/

/-- The inner handlers of `scanFeeds` observe one `ScanResult` per
configured source, in order, each carrying its own source url — no source's
failure removes another source's entry. -/
theorem scanFeeds_fold_sources (feedOf : String → Except String (List FeedItem))
    (scripts : String → Nat → Nat → Outcome) (now : Nat) :
    ∀ (urls : List String) (acc : List ScanRes) (store : Store),
      ((urls.foldl (fun (acc : List ScanRes × Store) (url : String) =>
          let r := scanSingleSource url (feedOf url) (scripts url) now 0 acc.2
          (acc.1 ++ [r.1], r.2.1)) (acc, store)).1.map (fun r => r.source)) =
        acc.map (fun r => r.source) ++ urls := by
  intro urls
  induction urls with
  | nil => intro acc store; simp
  | cons u rest ih =>
    intro acc store
    simp only [List.foldl_cons]
    rw [ih]
    simp [scanSingleSource_source]

/-! ## Source-store lemmas (`editSource`) -/

/-- `updateOne` with `$set` merges the given fields into the matched
document. -/
theorem lookupSource_updateOneSet_self (s : SourceStore) (id : Nat)
    (fields : List (String × JVal)) (d : Doc) (h : lookupSource s id = some d) :
    lookupSource (updateOneSet s id fields) id =
      some (fields.foldl (fun acc f => setField acc f.1 f.2) d) := by
  induction s with
  | nil => simp [lookupSource] at h
  | cons e rest ih =>
    obtain ⟨id', d'⟩ := e
    by_cases hid : id' = id
    · subst hid
      simp [lookupSource] at h
      subst h
      simp [updateOneSet, lookupSource]
    · simp [lookupSource, hid] at h
      simp [updateOneSet, lookupSource, hid, ih h]

/-- `updateOne` by id leaves every other source document unchanged. -/
theorem lookupSource_updateOneSet_ne (s : SourceStore) (id id' : Nat)
    (fields : List (String × JVal)) (h : id' ≠ id) :
    lookupSource (updateOneSet s id fields) id' = lookupSource s id' := by
  induction s with
  | nil => simp [updateOneSet, lookupSource]
  | cons e rest ih =>
    obtain ⟨i, d⟩ := e
    by_cases hi : i = id
    · subst hi
      simp [updateOneSet, lookupSource, h.symm, Ne.symm h]
    · simp [updateOneSet, lookupSource, hi, ih]

/-! ## Claim theorems -/

/-- C1: `scanSingleSource` never raises: every input resolves to a
`ScanResult` carrying the requested source url.  A malformed source URL
resolves `{scanned: 0, total: 0, error: 'Invalid URL format'}` without
consulting the feed; a feed fetch/parse failure resolves with that error
recorded and no item processing; and a successfully parsed feed resolves
with no top-level error and its item count as `total` — per-item failures
are absorbed into the counts rather than thrown. -/
theorem scanSource_never_raises_c1 (sourceUrl : String)
    (feed : Except String (List FeedItem)) (scripts : Nat → Nat → Outcome)
    (now pos : Nat) (store : Store) :
    (scanSingleSource sourceUrl feed scripts now pos store).1.source = sourceUrl ∧
    (validUrl sourceUrl = false →
      (scanSingleSource sourceUrl feed scripts now pos store).1 =
        ⟨0, 0, none, sourceUrl, some "Invalid URL format"⟩) ∧
    (∀ e, validUrl sourceUrl = true → feed = .error e →
      (scanSingleSource sourceUrl feed scripts now pos store).1 =
        ⟨0, 0, none, sourceUrl, some e⟩) ∧
    (∀ items, validUrl sourceUrl = true → feed = .ok items →
      (scanSingleSource sourceUrl feed scripts now pos store).1.error = none ∧
      (scanSingleSource sourceUrl feed scripts now pos store).1.total = items.length) := by
  refine ⟨scanSingleSource_source sourceUrl feed scripts now pos store, ?_, ?_, ?_⟩
  · intro hv
    simp [scanSingleSource, hv]
  · intro e hv hf
    subst hf
    simp [scanSingleSource, hv]
  · intro items hv hf
    subst hf
    by_cases hi : items.isEmpty
    · have hnil : items = [] := by
        cases items with
        | nil => rfl
        | cons a l => simp [List.isEmpty] at hi
      subst hnil
      simp [scanSingleSource, hv]
    · simp [scanSingleSource, hv, hi]

/-- C1 witness: the empty string is a malformed source URL and resolves to
the recorded-error `ScanResult`. -/
theorem scanSource_never_raises_c1_witness :
    validUrl "" = false ∧
    (scanSingleSource "" (.error "getaddrinfo ENOTFOUND") (fun _ _ => .netErr "") 0 0 []).1 =
      ⟨0, 0, none, "", some "Invalid URL format"⟩ :=
  ⟨by decide,
    (scanSource_never_raises_c1 "" (.error "getaddrinfo ENOTFOUND")
      (fun _ _ => .netErr "") 0 0 []).2.1 (by decide)⟩

/-- C6 counterexample: a feed that parses successfully with zero items
resolves `{scanned: 0, total: 0}` with no `failed` field at all, so
`failedCount = totalItems - succeededCount` fails at `n = 0` (the field is
`undefined`, not `0`). -/
theorem scanCounts_c6_counterexample :
    (scanSingleSource "https://s.example/feed" (.ok []) (fun _ _ => .netErr "") 0 0 []).1.failed =
      none ∧
    ¬ (scanSingleSource "https://s.example/feed" (.ok []) (fun _ _ => .netErr "") 0 0 []).1.failed =
        some ((scanSingleSource "https://s.example/feed" (.ok [])
            (fun _ _ => .netErr "") 0 0 []).1.total -
          (scanSingleSource "https://s.example/feed" (.ok [])
            (fun _ _ => .netErr "") 0 0 []).1.scanned) := by
  decide

/-- C6 (amended): for every feed that parses successfully with at least one
item, the result satisfies `total = n`, `scanned` = the number of item
outcomes that succeeded (an outcome succeeds exactly when its article write
was performed), `failed = some (total - scanned)`, the store receives
exactly the successful writes, and an item missing a link is counted as
failed.  (A zero-item feed instead resolves with no `failed` field — the
only deviation from the original claim.) -/
theorem scanCounts_c6 (sourceUrl : String) (items : List FeedItem)
    (scripts : Nat → Nat → Outcome) (now pos : Nat) (store : Store)
    (hv : validUrl sourceUrl = true) (hne : items ≠ []) :
    (scanSingleSource sourceUrl (.ok items) scripts now pos store).1.total = items.length ∧
    (scanSingleSource sourceUrl (.ok items) scripts now pos store).1.scanned =
      ((scanItemsGo scripts sourceUrl now items 0 pos (initStats items.length)).1.filter
        (fun o => o.success)).length ∧
    (scanSingleSource sourceUrl (.ok items) scripts now pos store).1.failed =
      some (items.length -
        (scanSingleSource sourceUrl (.ok items) scripts now pos store).1.scanned) ∧
    (scanSingleSource sourceUrl (.ok items) scripts now pos store).2.1 =
      applyWrites ((scanItemsGo scripts sourceUrl now items 0 pos
        (initStats items.length)).1.filterMap (fun o => o.write)) store ∧
    (∀ o ∈ (scanItemsGo scripts sourceUrl now items 0 pos (initStats items.length)).1,
      o.success = o.write.isSome) ∧
    List.Forall₂ (fun (item : FeedItem) (o : ItemOut) => item.link = none → o.success = false)
      items (scanItemsGo scripts sourceUrl now items 0 pos (initStats items.length)).1 := by
  have hie : items.isEmpty = false := by
    cases items with
    | nil => exact absurd rfl hne
    | cons a l => rfl
  refine ⟨?_, ?_, ?_, ?_,
    scanItemsGo_success_iff_write scripts sourceUrl now items 0 pos (initStats items.length),
    scanItemsGo_missing_link scripts sourceUrl now items 0 pos (initStats items.length)⟩
  · simp [scanSingleSource, hv, hie]
  · simp [scanSingleSource, hv, hie]
  · simp [scanSingleSource, hv, hie]
  · simp [scanSingleSource, hv, hie]

/-- C6 witness: a one-item feed with a successful extraction reports
`total = 1`, `scanned = 1`, `failed = some 0`. -/
theorem scanCounts_c6_witness :
    validUrl "https://s.example/feed" = true ∧
    ([⟨"A", some "https://a.example/1", 10⟩] : List FeedItem) ≠ [] ∧
    (scanSingleSource "https://s.example/feed" (.ok [⟨"A", some "https://a.example/1", 10⟩])
      c3Scripts 7 0 []).1.total = 1 := by
  refine ⟨by decide, by decide, ?_⟩
  have h := scanCounts_c6 "https://s.example/feed" [⟨"A", some "https://a.example/1", 10⟩]
    c3Scripts 7 0 [] (by decide) (by decide)
  simpa using h.1

/-- C7 counterexample: with six configured sources, `scanFeeds` launches
all six scans simultaneously (`Promise.all` over the full mapped list), so
no fixed concurrent-source limit of 5 holds; and it returns `undefined`
rather than a list of per-source results. -/
theorem scanAll_unbounded_c7_counterexample :
    (scanFeeds c7Urls (fun _ => .error "fetch failed") (fun _ _ _ => .netErr "") 0
      []).1.launched = 6 ∧
    ¬ ((scanFeeds c7Urls (fun _ => .error "fetch failed") (fun _ _ _ => .netErr "") 0
      []).1.launched ≤ 5) ∧
    (scanFeeds c7Urls (fun _ => .error "fetch failed") (fun _ _ _ => .netErr "") 0
      []).1.returned = none := by
  decide

/-- C7 (amended): `scanFeeds` loads all configured sources and launches a
`scanSource` for every one of them simultaneously — the number of
concurrently started source scans equals the source count, with no bound —
and each source's `ScanResult` is only logged by its inner handler (one
entry per source, in order, no wholesale failure), while `scanFeeds` itself
returns nothing. -/
theorem scanAll_unbounded_c7 (urls : List String)
    (feedOf : String → Except String (List FeedItem))
    (scripts : String → Nat → Nat → Outcome) (now : Nat) (store : Store) :
    (scanFeeds urls feedOf scripts now store).1.launched = urls.length ∧
    (scanFeeds urls feedOf scripts now store).1.logged.map (fun r => r.source) = urls ∧
    (scanFeeds urls feedOf scripts now store).1.returned = none := by
  refine ⟨rfl, ?_, rfl⟩
  have h := scanFeeds_fold_sources feedOf scripts now urls [] store
  simpa [scanFeeds] using h

/-- C9: editing a source by id `$set`s exactly `url`, `name`,
`description` and `lastModified`; `dateAdded` and every other stored field
of the document survive unchanged, as do all other source documents. -/
theorem editSource_frame_c9 (s : SourceStore) (id : Nat) (url name description : String)
    (now : Nat) (d : Doc) (hurl : url ≠ "") (hd : lookupSource s id = some d) :
    ∃ d', lookupSource (editSource s id url name description now) id = some d' ∧
      getField d' "dateAdded" = getField d "dateAdded" ∧
      getField d' "lastModified" = some (.jdate now) ∧
      getField d' "url" = some (.jstr url) ∧
      getField d' "name" = some (.jstr (if name = "" then hostnameOf url else name)) ∧
      getField d' "description" = some (.jstr description) ∧
      (∀ f, f ≠ "url" → f ≠ "name" → f ≠ "description" → f ≠ "lastModified" →
        getField d' f = getField d f) ∧
      (∀ id', id' ≠ id →
        lookupSource (editSource s id url name description now) id' = lookupSource s id') := by
  simp only [editSource, hurl, if_false, ite_false]
  have hself := lookupSource_updateOneSet_self s id
    [("url", .jstr url), ("name", .jstr (if name = "" then hostnameOf url else name)),
     ("description", .jstr description), ("lastModified", .jdate now)] d hd
  simp only [List.foldl] at hself
  refine ⟨_, hself, ?_, ?_, ?_, ?_, ?_, ?_, ?_⟩
  · rw [getField_setField_ne _ _ _ _ (by decide), getField_setField_ne _ _ _ _ (by decide),
      getField_setField_ne _ _ _ _ (by decide), getField_setField_ne _ _ _ _ (by decide)]
  · exact getField_setField_self _ _ _
  · rw [getField_setField_ne _ _ _ _ (by decide), getField_setField_ne _ _ _ _ (by decide),
      getField_setField_ne _ _ _ _ (by decide)]
    exact getField_setField_self _ _ _
  · rw [getField_setField_ne _ _ _ _ (by decide), getField_setField_ne _ _ _ _ (by decide)]
    exact getField_setField_self _ _ _
  · rw [getField_setField_ne _ _ _ _ (by decide)]
    exact getField_setField_self _ _ _
  · intro f h1 h2 h3 h4
    rw [getField_setField_ne _ _ _ _ h4, getField_setField_ne _ _ _ _ h3,
      getField_setField_ne _ _ _ _ h2, getField_setField_ne _ _ _ _ h1]
  · intro id' hne
    exact lookupSource_updateOneSet_ne s id id' _ hne

/-- C9 witness: a concrete edit preserves `dateAdded` and an unrelated
`extra` field. -/
theorem editSource_frame_c9_witness :
    ("https://new.example/f" ≠ "") ∧
    (∃ d', lookupSource (editSource
        [(1, [("url", JVal.jstr "https://old.example/f"), ("dateAdded", JVal.jdate 5),
              ("extra", JVal.jstr "keep")])]
        1 "https://new.example/f" "" "d" 9) 1 = some d' ∧
      getField d' "dateAdded" = some (JVal.jdate 5) ∧
      getField d' "lastModified" = some (JVal.jdate 9) ∧
      getField d' "extra" = some (JVal.jstr "keep")) := by
  refine ⟨by decide, ?_⟩
  obtain ⟨d', hd', hdate, hmod, _, _, _, hframe, _⟩ :=
    editSource_frame_c9
      [(1, [("url", JVal.jstr "https://old.example/f"), ("dateAdded", JVal.jdate 5),
            ("extra", JVal.jstr "keep")])]
      1 "https://new.example/f" "" "d" 9
      [("url", JVal.jstr "https://old.example/f"), ("dateAdded", JVal.jdate 5),
       ("extra", JVal.jstr "keep")]
      (by decide) (by decide)
  refine ⟨d', hd', ?_, hmod, ?_⟩
  · rw [hdate]; decide
  · rw [hframe "extra" (by decide) (by decide) (by decide) (by decide)]; decide

set_option maxHeartbeats 3200000 in
/-- A 429 first attempt with a `Retry-After` hint followed by a 200 with
valid extractable content: the item succeeds on the second of exactly two
extraction calls, waits the hinted duration, increments the rate-limited
counter once, and writes its article. -/
theorem runItem_429_then_ok (script : Nat → Outcome) (ra : Nat) (ra2 : Option Nat)
    (u0 c0 u content title sourceUrl : String) (pubDate now : Nat)
    (hs0 : script 0 = .resp 429 (some ra) u0 c0)
    (hs1 : script 1 = .resp 200 ra2 u content)
    (hc : ¬ content = "") (hu : validUrl u = true) :
    ∃ d, ∀ (pos : Nat) (st : FailureStats),
      runItem script title pubDate sourceUrl now pos st =
        ⟨true, 2, [ra * 1000], [pos, pos + 1],
          { st with http429 := st.http429 + 1 }, some (u, d)⟩ := by
  have hjson : getStr (setField (setField (setField
      [("url", JVal.jstr u), ("content", JVal.jstr content)]
      "publication date" (JVal.jdate pubDate)) "title" (JVal.jstr title))
      "origin" (JVal.jstr sourceUrl)) "url" = u := rfl
  obtain ⟨d, hd⟩ := parseAndSaveResponseW_ok (setField (setField (setField
      [("url", JVal.jstr u), ("content", JVal.jstr content)]
      "publication date" (JVal.jdate pubDate)) "title" (JVal.jstr title))
      "origin" (JVal.jstr sourceUrl)) now (by rw [hjson]; exact hu)
  rw [hjson] at hd
  refine ⟨d, fun pos st => ?_⟩
  simp only [runItem, maxAttempts]
  simp [runItemGo, hs0, hs1, hc, hd, maxAttempts]

set_option maxHeartbeats 3200000 in
/-- The one-item scan built on `runItem_429_then_ok`: the scan reports one
success out of one item, stores the article, and its logged failure stats
count the 429 once. -/
theorem scanSingleSource_one429 (script : Nat → Outcome) (ra : Nat) (ra2 : Option Nat)
    (u0 c0 u content title sourceUrl : String) (pubDate now pos : Nat) (store : Store)
    (hs0 : script 0 = .resp 429 (some ra) u0 c0)
    (hs1 : script 1 = .resp 200 ra2 u content)
    (hc : ¬ content = "") (hu : validUrl u = true) (hsv : validUrl sourceUrl = true) :
    ∃ d, scanSingleSource sourceUrl (.ok [⟨title, some u, pubDate⟩]) (fun _ => script)
        now pos store =
      (⟨1, 1, some 0, sourceUrl, none⟩, replaceOne store u d,
        { initStats 1 with http429 := 1 }) := by
  obtain ⟨d, hrun⟩ := runItem_429_then_ok script ra ra2 u0 c0 u content title sourceUrl
    pubDate now hs0 hs1 hc hu
  refine ⟨d, ?_⟩
  simp only [scanSingleSource, hsv]
  norm_num [scanItemsGo, hrun, applyWrites, initStats, List.filterMap_cons,
    List.foldl_cons, List.foldl_nil]

/-- C5: an item whose extraction returns HTTP 429 (with a `Retry-After`
hint) on the first attempt and HTTP 200 with valid content on the second is
reported as succeeded after exactly 2 extraction calls, the backoff wait is
the hinted `Retry-After` duration (seconds × 1000 ms), the scan counts the
item in `scanned`, and its article is stored. -/
theorem rateLimit_retry_c5 (script : Nat → Outcome) (ra : Nat) (ra2 : Option Nat)
    (u0 c0 u content title sourceUrl : String) (pubDate now pos : Nat)
    (st : FailureStats) (store : Store)
    (hs0 : script 0 = .resp 429 (some ra) u0 c0)
    (hs1 : script 1 = .resp 200 ra2 u content)
    (hc : ¬ content = "") (hu : validUrl u = true) (hsv : validUrl sourceUrl = true) :
    (runItem script title pubDate sourceUrl now pos st).success = true ∧
    (runItem script title pubDate sourceUrl now pos st).calls = 2 ∧
    (runItem script title pubDate sourceUrl now pos st).waits = [ra * 1000] ∧
    (scanSingleSource sourceUrl (.ok [⟨title, some u, pubDate⟩]) (fun _ => script) now pos
      store).1.scanned = 1 ∧
    containsKey (scanSingleSource sourceUrl (.ok [⟨title, some u, pubDate⟩]) (fun _ => script)
      now pos store).2.1 u = true := by
  obtain ⟨d, hrun⟩ := runItem_429_then_ok script ra ra2 u0 c0 u content title sourceUrl
    pubDate now hs0 hs1 hc hu
  obtain ⟨d2, hscan⟩ := scanSingleSource_one429 script ra ra2 u0 c0 u content title sourceUrl
    pubDate now pos store hs0 hs1 hc hu hsv
  refine ⟨by rw [hrun pos st], by rw [hrun pos st], by rw [hrun pos st], ?_, ?_⟩
  · rw [hscan]
  · rw [hscan]
    simp [containsKey, lookupDoc_replaceOne_self]

/-- C5 witness: the concrete 429-then-200 script at `Retry-After: 7`. -/
theorem rateLimit_retry_c5_witness :
    ((fun a => if a = 0 then Outcome.resp 429 (some 7) "" ""
        else Outcome.resp 200 none "https://a.example/9" "Hello world.") 0 =
      Outcome.resp 429 (some 7) "" "") ∧
    (runItem (fun a => if a = 0 then Outcome.resp 429 (some 7) "" ""
        else Outcome.resp 200 none "https://a.example/9" "Hello world.")
      "T" 10 "https://s.example/feed" 7 0 (initStats 1)).success = true ∧
    (runItem (fun a => if a = 0 then Outcome.resp 429 (some 7) "" ""
        else Outcome.resp 200 none "https://a.example/9" "Hello world.")
      "T" 10 "https://s.example/feed" 7 0 (initStats 1)).calls = 2 ∧
    (runItem (fun a => if a = 0 then Outcome.resp 429 (some 7) "" ""
        else Outcome.resp 200 none "https://a.example/9" "Hello world.")
      "T" 10 "https://s.example/feed" 7 0 (initStats 1)).waits = [7 * 1000] := by
  have h := rateLimit_retry_c5
    (fun a => if a = 0 then Outcome.resp 429 (some 7) "" ""
      else Outcome.resp 200 none "https://a.example/9" "Hello world.")
    7 none "" "" "https://a.example/9" "Hello world." "T" "https://s.example/feed"
    10 7 0 (initStats 1) [] rfl rfl (by decide) (by decide) (by decide)
  exact ⟨rfl, h.1, h.2.1, h.2.2.1⟩

/-- C10: the rate-limited counter counts 429 responses per attempt, not per
failed item: with a 429 answered by a successful retry, the item succeeds
(`scanned = 1`, `failed = some 0`) yet the scan's failure stats carry
`http429 = 1`, so the sum of the failure buckets (1) exceeds the failed
count (0). -/
theorem rateLimited_perAttempt_c10 (script : Nat → Outcome) (ra : Nat) (ra2 : Option Nat)
    (u0 c0 u content title sourceUrl : String) (pubDate now pos : Nat)
    (st : FailureStats) (store : Store)
    (hs0 : script 0 = .resp 429 (some ra) u0 c0)
    (hs1 : script 1 = .resp 200 ra2 u content)
    (hc : ¬ content = "") (hu : validUrl u = true) (hsv : validUrl sourceUrl = true) :
    (runItem script title pubDate sourceUrl now pos st).success = true ∧
    (runItem script title pubDate sourceUrl now pos st).stats.http429 = st.http429 + 1 ∧
    (scanSingleSource sourceUrl (.ok [⟨title, some u, pubDate⟩]) (fun _ => script) now pos
      store).1.scanned = 1 ∧
    (scanSingleSource sourceUrl (.ok [⟨title, some u, pubDate⟩]) (fun _ => script) now pos
      store).1.failed = some 0 ∧
    (scanSingleSource sourceUrl (.ok [⟨title, some u, pubDate⟩]) (fun _ => script) now pos
      store).2.2.http429 = 1 ∧
    (scanSingleSource sourceUrl (.ok [⟨title, some u, pubDate⟩]) (fun _ => script) now pos
        store).2.2.http500 +
      (scanSingleSource sourceUrl (.ok [⟨title, some u, pubDate⟩]) (fun _ => script) now pos
        store).2.2.http403 +
      (scanSingleSource sourceUrl (.ok [⟨title, some u, pubDate⟩]) (fun _ => script) now pos
        store).2.2.http429 +
      (scanSingleSource sourceUrl (.ok [⟨title, some u, pubDate⟩]) (fun _ => script) now pos
        store).2.2.timeout +
      (scanSingleSource sourceUrl (.ok [⟨title, some u, pubDate⟩]) (fun _ => script) now pos
        store).2.2.noContent +
      (scanSingleSource sourceUrl (.ok [⟨title, some u, pubDate⟩]) (fun _ => script) now pos
        store).2.2.other = 1 := by
  obtain ⟨d, hrun⟩ := runItem_429_then_ok script ra ra2 u0 c0 u content title sourceUrl
    pubDate now hs0 hs1 hc hu
  obtain ⟨d2, hscan⟩ := scanSingleSource_one429 script ra ra2 u0 c0 u content title sourceUrl
    pubDate now pos store hs0 hs1 hc hu hsv
  refine ⟨?_, ?_, ?_, ?_, ?_, ?_⟩
  · rw [hrun pos st]
  · rw [hrun pos st]
  · rw [hscan]
  · rw [hscan]
  · rw [hscan]
  · rw [hscan]
    rfl

/-- C10 witness: the concrete 429-then-200 script. -/
theorem rateLimited_perAttempt_c10_witness :
    ((fun a => if a = 0 then Outcome.resp 429 (some 3) "" ""
        else Outcome.resp 200 none "https://a.example/8" "Hello world.") 0 =
      Outcome.resp 429 (some 3) "" "") ∧
    (scanSingleSource "https://s.example/feed"
      (.ok [⟨"U", some "https://a.example/8", 11⟩])
      (fun _ => fun a => if a = 0 then Outcome.resp 429 (some 3) "" ""
        else Outcome.resp 200 none "https://a.example/8" "Hello world.")
      9 0 []).1.failed = some 0 ∧
    (scanSingleSource "https://s.example/feed"
      (.ok [⟨"U", some "https://a.example/8", 11⟩])
      (fun _ => fun a => if a = 0 then Outcome.resp 429 (some 3) "" ""
        else Outcome.resp 200 none "https://a.example/8" "Hello world.")
      9 0 []).2.2.http429 = 1 := by
  have h := rateLimited_perAttempt_c10
    (fun a => if a = 0 then Outcome.resp 429 (some 3) "" ""
      else Outcome.resp 200 none "https://a.example/8" "Hello world.")
    3 none "" "" "https://a.example/8" "Hello world." "U" "https://s.example/feed"
    11 9 0 (initStats 1) [] rfl rfl (by decide) (by decide) (by decide)
  exact ⟨rfl, h.2.2.2.1, h.2.2.2.2.1⟩

/-- C2 counterexample: in the 3-item scenario (one 403 item, one good item,
one empty-content item) the 403 item receives two extraction calls, not
one, and the access-denied bucket is incremented twice, not once — the
source retries 401/403 through its generic request-error catch.  The scan
still reports `{scanned: 1, total: 3, failed: 2}`. -/
theorem accessDenied_retry_c2_counterexample :
    ((scanItemsGo c2Scripts "https://s.example/feed" 7 c2Feed 0 0 (initStats 3)).1.map
      (fun o => o.calls)) = [2, 1, 1] ∧
    (scanSingleSource "https://s.example/feed" (.ok c2Feed) c2Scripts 7 0 []).2.2.http403 = 2 ∧
    ¬ ((scanSingleSource "https://s.example/feed" (.ok c2Feed) c2Scripts 7 0
      []).2.2.http403 = 1) ∧
    (scanSingleSource "https://s.example/feed" (.ok c2Feed) c2Scripts 7 0 []).1 =
      ⟨1, 3, some 2, "https://s.example/feed", none⟩ ∧
    (scanSingleSource "https://s.example/feed" (.ok c2Feed) c2Scripts 7 0 []).2.2.noContent =
      1 := by
  decide

set_option maxHeartbeats 3200000 in
/-- C2 (amended): an item answered HTTP 401/403 is classified access-denied
but the thrown classification error is retried once by the generic catch:
exactly two extraction calls are made, the access-denied counter is
incremented once per 401/403 response (twice when both attempts are
blocked), the item fails and stores nothing.  In the 3-item scenario the
failure stats are `{accessDenied: 2, noContent: 1}` with
`{scanned: 1, total: 3, failed: 2}` (see the counterexample theorem), and
the breakdown is logged, not returned in the `ScanResult`. -/
theorem accessDenied_retry_c2 (script : Nat → Outcome) (s1 s2 : Nat)
    (ra1 ra2 : Option Nat) (u1 u2 c1 c2 : String) (title sourceUrl : String)
    (pubDate now pos : Nat) (st : FailureStats)
    (h1 : s1 = 403 ∨ s1 = 401) (h2 : s2 = 403 ∨ s2 = 401)
    (hs0 : script 0 = .resp s1 ra1 u1 c1) (hs1 : script 1 = .resp s2 ra2 u2 c2) :
    (runItem script title pubDate sourceUrl now pos st).success = false ∧
    (runItem script title pubDate sourceUrl now pos st).calls = 2 ∧
    (runItem script title pubDate sourceUrl now pos st).stats.http403 = st.http403 + 2 ∧
    (runItem script title pubDate sourceUrl now pos st).write = none := by
  rcases h1 with h1 | h1 <;> rcases h2 with h2 | h2 <;> subst h1 <;> subst h2 <;>
    (simp only [runItem, maxAttempts];
     simp [runItemGo, hs0, hs1, maxAttempts];
     try omega)

/-- C2 witness: a double-403 script yields two calls and two access-denied
increments. -/
theorem accessDenied_retry_c2_witness :
    ((403 : Nat) = 403 ∨ (403 : Nat) = 401) ∧
    (runItem (fun _ => Outcome.resp 403 none "" "") "A" 10 "https://s.example/feed" 7 0
      (initStats 3)).calls = 2 ∧
    (runItem (fun _ => Outcome.resp 403 none "" "") "A" 10 "https://s.example/feed" 7 0
      (initStats 3)).stats.http403 = (initStats 3).http403 + 2 := by
  have h := accessDenied_retry_c2 (fun _ => Outcome.resp 403 none "" "") 403 403
    none none "" "" "" "" "A" "https://s.example/feed" 10 7 0 (initStats 3)
    (Or.inl rfl) (Or.inl rfl) rfl rfl
  exact ⟨Or.inl rfl, h.2.1, h.2.2.1⟩

/-- C4 counterexample: an article body of a single space is truthy content
that cleans to zero words, yet the analysis completes (no `NoContentError`
exists anywhere in the pipeline) and stores `Flesch = NaN`;
`avgWordSyllables` comes out `0`, not `NaN`, because JS `"".split(' ')`
yields `[""]`. -/
theorem zeroWords_nan_c4_counterexample :
    (parseAndSaveResponseW c4Json 0).toOption.map (fun p => getField p.2 "Flesch") =
      some (some (.jnum .nan)) ∧
    (parseAndSaveResponseW c4Json 0).toOption.map (fun p => getField p.2 "Smog") =
      some (some (.jnum .nan)) ∧
    (parseAndSaveResponseW c4Json 0).toOption.map (fun p => p.1) =
      some "https://a.example/z" ∧
    (parseAndSaveResponseW c4Json 0).toOption.isSome = true := by
  decide

/-- C4 (amended): an article body whose cleaned text contains zero words is
not rejected — the pipeline defines no `NoContentError` and applies no
zero-count short-circuit.  The analysis completes and stores `NaN` for all
eight readability scores (the formula libraries return `NaN` on zero
counts); `avgWordSyllables` is `0` rather than `NaN` because the
split-on-space word list of an empty string is `[""]`, never empty, so its
division never has a zero denominator. -/
theorem zeroWords_nan_c4 (json : Doc) (now : Nat)
    (hurl : validUrl (getStr json "url") = true)
    (hzero : cleanText (getStr json "content") = "") :
    ∃ d, parseAndSaveResponseW json now = .ok (getStr json "url", d) ∧
      getField d "Flesch" = some (.jnum .nan) ∧
      getField d "Flesch Kincaid" = some (.jnum .nan) ∧
      getField d "Smog" = some (.jnum .nan) ∧
      getField d "Dale Chall" = some (.jnum .nan) ∧
      getField d "Coleman Liau" = some (.jnum .nan) ∧
      getField d "Gunning Fog" = some (.jnum .nan) ∧
      getField d "Spache" = some (.jnum .nan) ∧
      getField d "Automated Readability" = some (.jnum .nan) ∧
      getField d "words" = some (.jnum (.num 0)) ∧
      getField d "word syllables" = some (.jnum (.num 0)) := by
  have e1 : countParagraphs (cleanText (getStr json "content")).toList = 0 := by
    rw [hzero]; decide
  have e2 : countSentences (cleanText (getStr json "content")).toList = 0 := by
    rw [hzero]; decide
  have e3 : countWords (cleanText (getStr json "content")).toList = 0 := by
    rw [hzero]; decide
  have e4 : countCharacters (cleanText (getStr json "content")).toList = 0 := by
    rw [hzero]; decide
  have e5 : syllableCount (cleanText (getStr json "content")).toList = 0 := by
    rw [hzero]; decide
  have e6 : (splitChar ' ' (cleanText (getStr json "content")).toList).map syllableCount =
      [0] := by rw [hzero]; decide
  simp only [parseAndSaveResponseW, e1, e2, e3, e4, e5, e6, hurl, if_true, ite_true]
  norm_num
  simp [getField_setField_ne, getField_setField_self, fleschF, fleschKincaidF, smogF,
    daleChallF, colemanLiauF, gunningFogF, spacheF, automatedReadabilityF]

/-- C4 witness: the single-space body. -/
theorem zeroWords_nan_c4_witness :
    validUrl (getStr c4Json "url") = true ∧
    cleanText (getStr c4Json "content") = "" ∧
    (∃ d, parseAndSaveResponseW c4Json 0 = .ok (getStr c4Json "url", d) ∧
      getField d "Flesch" = some (.jnum .nan)) := by
  refine ⟨by decide, by decide, ?_⟩
  obtain ⟨d, hok, hfl, -⟩ := zeroWords_nan_c4 c4Json 0 (by decide) (by decide)
  exact ⟨d, hok, hfl⟩

/-- Replaying a write sequence with restamped `date` fields over its own
result preserves the key list, the per-source article counts, and every
document field except the analysis timestamp. -/
theorem applyWrites_rescan (W : List (String × Doc)) (s0 : Store) (n₂ : Nat)
    (hu : uniqueKeys s0) :
    storeKeys (applyWrites (W.map (retimeW n₂)) (applyWrites W s0)) =
      storeKeys (applyWrites W s0) ∧
    (∀ u, countArticlesForSource (applyWrites (W.map (retimeW n₂)) (applyWrites W s0)) u =
      countArticlesForSource (applyWrites W s0) u) ∧
    (∀ k f, f ≠ "date" →
      (lookupDoc (applyWrites (W.map (retimeW n₂)) (applyWrites W s0)) k).map
          (fun d => getField d f) =
        (lookupDoc (applyWrites W s0) k).map (fun d => getField d f)) := by
  have hcont : ∀ w ∈ W.map (retimeW n₂), containsKey (applyWrites W s0) w.1 = true := by
    intro w hw
    obtain ⟨w', hw', rfl⟩ := List.mem_map.mp hw
    have hmem : w'.1 ∈ W.map (fun x => x.1) := List.mem_map.mpr ⟨w', hw', rfl⟩
    have hsome : (lastWrite W w'.1).isSome = true := (lastWrite_isSome_iff W w'.1).mpr hmem
    rw [containsKey, lookupDoc_applyWrites]
    cases hlw : lastWrite W w'.1 with
    | none => rw [hlw] at hsome; simp at hsome
    | some d => simp [retimeW, hlw]
  have hkeys : storeKeys (applyWrites (W.map (retimeW n₂)) (applyWrites W s0)) =
      storeKeys (applyWrites W s0) :=
    storeKeys_applyWrites_of_contained _ _ hcont
  have hu1 : uniqueKeys (applyWrites W s0) := uniqueKeys_applyWrites W s0 hu
  have hlook : ∀ k f, f ≠ "date" →
      (lookupDoc (applyWrites (W.map (retimeW n₂)) (applyWrites W s0)) k).map
        (fun d => getField d f) =
      (lookupDoc (applyWrites W s0) k).map (fun d => getField d f) := by
    intro k f hf
    rw [lookupDoc_applyWrites (W.map (retimeW n₂)) (applyWrites W s0) k,
        lastWrite_map_retime W k n₂]
    cases hlw : lastWrite W k with
    | none => simp
    | some d =>
      have h1 : lookupDoc (applyWrites W s0) k = some d := by
        rw [lookupDoc_applyWrites, hlw]
        rfl
      simp [h1, redate, getField_setField_ne _ _ _ _ hf]
  refine ⟨hkeys, ?_, hlook⟩
  intro u
  apply countArticles_eq_of_forall2
  apply forall2_of_keys_lookup
    (fun d₂ d₁ => ∀ f, f ≠ "date" → getField d₂ f = getField d₁ f) _ _ hkeys hu1
  intro k d₂ d₁ h₂ h₁ f hf
  have hmap := hlook k f hf
  rw [h₂, h₁] at hmap
  simpa using hmap

/-- Re-scanning a source with the same feed and extraction outcomes at a
later time preserves the stored url set, the `countArticlesForSource`
answer for every source, and every stored field except the `date`
analysis timestamp. -/
theorem scanSingleSource_rescan (sourceUrl : String) (feed : Except String (List FeedItem))
    (scripts : Nat → Nat → Outcome) (n₁ n₂ pos : Nat) (store : Store)
    (hu : uniqueKeys store) :
    storeKeys (scanSingleSource sourceUrl feed scripts n₂ pos
        (scanSingleSource sourceUrl feed scripts n₁ pos store).2.1).2.1 =
      storeKeys (scanSingleSource sourceUrl feed scripts n₁ pos store).2.1 ∧
    (∀ u, countArticlesForSource (scanSingleSource sourceUrl feed scripts n₂ pos
        (scanSingleSource sourceUrl feed scripts n₁ pos store).2.1).2.1 u =
      countArticlesForSource (scanSingleSource sourceUrl feed scripts n₁ pos store).2.1 u) ∧
    (∀ k f, f ≠ "date" →
      (lookupDoc (scanSingleSource sourceUrl feed scripts n₂ pos
          (scanSingleSource sourceUrl feed scripts n₁ pos store).2.1).2.1 k).map
        (fun d => getField d f) =
      (lookupDoc (scanSingleSource sourceUrl feed scripts n₁ pos store).2.1 k).map
        (fun d => getField d f)) := by
  by_cases hv : validUrl sourceUrl = true
  · cases feed with
    | error e => simp [scanSingleSource, hv]
    | ok items =>
      by_cases hi : items.isEmpty
      · simp [scanSingleSource, hv, hi]
      · have houts := scanItemsGo_retime scripts sourceUrl n₁ n₂ items 0 pos
          (initStats items.length)
        have hW : ((scanItemsGo scripts sourceUrl n₂ items 0 pos
            (initStats items.length)).1.filterMap (fun o => o.write)) =
          ((scanItemsGo scripts sourceUrl n₁ items 0 pos
            (initStats items.length)).1.filterMap (fun o => o.write)).map (retimeW n₂) := by
          rw [houts]
          simp [List.filterMap_map, List.map_filterMap, Function.comp_def, retimeOut_write]
        have hunfold : ∀ (n : Nat) (st : Store),
            (scanSingleSource sourceUrl (.ok items) scripts n pos st).2.1 =
            applyWrites ((scanItemsGo scripts sourceUrl n items 0 pos
              (initStats items.length)).1.filterMap (fun o => o.write)) st := by
          intro n st
          simp [scanSingleSource, hv, hi]
        rw [hunfold n₂, hunfold n₁, hW]
        exact applyWrites_rescan
          ((scanItemsGo scripts sourceUrl n₁ items 0 pos
            (initStats items.length)).1.filterMap (fun o => o.write)) store n₂ hu
  · simp [scanSingleSource, hv]

/-- C3 counterexample: scanning the same one-item feed twice (at analysis
times 1 and 2) does not leave the set of stored documents unchanged — the
stored article's `date` field is restamped on the second scan, so the
stores differ. -/
theorem upsertReplace_c3_counterexample :
    ((lookupDoc (scanSingleSource "https://s.example/feed" (.ok c3Feed) c3Scripts 2 0
        (scanSingleSource "https://s.example/feed" (.ok c3Feed) c3Scripts 1 0 []).2.1).2.1
      "https://a.example/1").map (fun d => getField d "date") = some (some (.jdate 2))) ∧
    ((lookupDoc (scanSingleSource "https://s.example/feed" (.ok c3Feed) c3Scripts 1 0
        []).2.1 "https://a.example/1").map (fun d => getField d "date") =
      some (some (.jdate 1))) ∧
    (scanSingleSource "https://s.example/feed" (.ok c3Feed) c3Scripts 2 0
        (scanSingleSource "https://s.example/feed" (.ok c3Feed) c3Scripts 1 0 []).2.1).2.1 ≠
      (scanSingleSource "https://s.example/feed" (.ok c3Feed) c3Scripts 1 0 []).2.1 := by
  refine ⟨by decide, by decide, fun h => ?_⟩
  have hc := congrArg (fun s => (lookupDoc s "https://a.example/1").map
    (fun d => getField d "date")) h
  exact absurd hc (by decide)

/-- C3 (amended): `replaceOne` upserts keep at most one Article per url and
fully replace the prior document (no field merge); re-scanning an unchanged
feed creates no duplicates — the stored url set and
`countArticlesForSource` are unchanged, and every stored field except the
`date` analysis timestamp (which the code restamps with `new Date()` on
every re-analysis) is unchanged. -/
theorem upsertReplace_c3 :
    (∀ (s : Store) (k : String) (d : Doc), uniqueKeys s → uniqueKeys (replaceOne s k d)) ∧
    (∀ (s : Store) (k : String) (d : Doc), lookupDoc (replaceOne s k d) k = some d) ∧
    (∀ (sourceUrl : String) (feed : Except String (List FeedItem))
        (scripts : Nat → Nat → Outcome) (n₁ n₂ pos : Nat) (store : Store),
      uniqueKeys store →
      storeKeys (scanSingleSource sourceUrl feed scripts n₂ pos
          (scanSingleSource sourceUrl feed scripts n₁ pos store).2.1).2.1 =
        storeKeys (scanSingleSource sourceUrl feed scripts n₁ pos store).2.1 ∧
      (∀ u, countArticlesForSource (scanSingleSource sourceUrl feed scripts n₂ pos
          (scanSingleSource sourceUrl feed scripts n₁ pos store).2.1).2.1 u =
        countArticlesForSource (scanSingleSource sourceUrl feed scripts n₁ pos store).2.1 u) ∧
      (∀ k f, f ≠ "date" →
        (lookupDoc (scanSingleSource sourceUrl feed scripts n₂ pos
            (scanSingleSource sourceUrl feed scripts n₁ pos store).2.1).2.1 k).map
          (fun d => getField d f) =
        (lookupDoc (scanSingleSource sourceUrl feed scripts n₁ pos store).2.1 k).map
          (fun d => getField d f))) :=
  ⟨uniqueKeys_replaceOne, lookupDoc_replaceOne_self,
    fun sourceUrl feed scripts n₁ n₂ pos store hu =>
      scanSingleSource_rescan sourceUrl feed scripts n₁ n₂ pos store hu⟩

/-- C3 witness: the concrete double scan of `c3Feed` over the empty store
leaves the stored url set unchanged. -/
theorem upsertReplace_c3_witness :
    uniqueKeys ([] : Store) ∧
    storeKeys (scanSingleSource "https://s.example/feed" (.ok c3Feed) c3Scripts 2 0
        (scanSingleSource "https://s.example/feed" (.ok c3Feed) c3Scripts 1 0 []).2.1).2.1 =
      storeKeys (scanSingleSource "https://s.example/feed" (.ok c3Feed) c3Scripts 1 0
        []).2.1 := by
  have hu : uniqueKeys ([] : Store) := by simp [uniqueKeys, storeKeys]
  exact ⟨hu, (upsertReplace_c3.2.2 "https://s.example/feed" (.ok c3Feed) c3Scripts 1 2 0
    [] hu).1⟩

/-- C8: on every extraction attempt the request carries a freshly drawn
user agent: any in-range `Math.random()` draw selects a member of the fixed
pool; the preimage of each pool index is the interval `[k/6, (k+1)/6)` —
six intervals of equal length, so the choice is uniform over the pool; and
the retry loop consumes one fresh draw per extraction call at consecutive,
pairwise-distinct stream positions, so the draw of one attempt is a
separate `Math.random()` call from (hence independent of) any other
attempt's. -/
theorem userAgent_rotation_c8 :
    (∀ r : ℚ, 0 ≤ r → r < 1 → ∃ ua, getRandomUserAgent r = some ua ∧ ua ∈ USER_AGENTS) ∧
    (∀ k : Nat, k < USER_AGENTS.length → ∀ r : ℚ,
      (0 ≤ r ∧ r < 1 ∧ uaIndex r = k) ↔ ((k : ℚ) / 6 ≤ r ∧ r < ((k : ℚ) + 1) / 6)) ∧
    (∀ (script : Nat → Outcome) (title : String) (pubDate : Nat) (sourceUrl : String)
        (now pos : Nat) (st : FailureStats),
      (runItem script title pubDate sourceUrl now pos st).uaPos =
        List.range' pos (runItem script title pubDate sourceUrl now pos st).calls ∧
      (runItem script title pubDate sourceUrl now pos st).uaPos.Nodup) := by
  refine ⟨getRandomUserAgent_mem, uaIndex_uniform, ?_⟩
  intro script title pubDate sourceUrl now pos st
  obtain ⟨n, hc, hua⟩ :=
    runItemGo_uaPos script title pubDate sourceUrl now maxAttempts 0 pos st 0 [] []
  constructor
  · show (runItemGo script title pubDate sourceUrl now 0 pos st 0 [] [] maxAttempts).uaPos =
      List.range' pos
        (runItemGo script title pubDate sourceUrl now 0 pos st 0 [] [] maxAttempts).calls
    rw [hua, hc]
    simp
  · show (runItemGo script title pubDate sourceUrl now 0 pos st 0 [] [] maxAttempts).uaPos.Nodup
    rw [hua]
    simpa using List.nodup_range' pos n

/-- C8 witness: the draw `1/2` is in range and selects a pool member. -/
theorem userAgent_rotation_c8_witness :
    ((0 : ℚ) ≤ 1 / 2 ∧ (1 / 2 : ℚ) < 1) ∧
    (∃ ua, getRandomUserAgent (1 / 2) = some ua ∧ ua ∈ USER_AGENTS) :=
  ⟨⟨by norm_num, by norm_num⟩,
    userAgent_rotation_c8.1 (1 / 2) (by norm_num) (by norm_num)⟩

end Readability
